import Mathlib

/-!
Shallow embedding of the respiratory-mortality-analysis service core:
the feature pipeline (`app/services/data_processor.py`), the training
engine and registry (`app/services/ml_service.py`), the training API
endpoint and Celery tasks (`app/api/v1/endpoints/models.py`,
`app/tasks/training_tasks.py`) and the retention script
(`scripts/model_management.py`).

Numbers are modelled as exact rationals (`Rat`); the floating-point
square root used by sklearn's `StandardScaler` is a parameter
(`sqrtFn`), numpy's seeded shuffle used by `train_test_split` is a
parameter (`permFn`), and sklearn's classifier fitting is a parameter
(`fitFn`), since those live outside the repository.  Dataframes are
column-named tables of cells.
-/

namespace RespMort

/-- A pandas cell: a string or a number (exact rational in the model). -/
inductive Value where
  | str : String → Value
  | num : Rat → Value
deriving DecidableEq, Repr

/-- A dataframe: column names plus rows of cells (row i, column j at
position j of row i). -/
structure DataFrame where
  cols : List String
  rows : List (List Value)
deriving DecidableEq, Repr

/-- Index of a name in a list (first occurrence, `len` when absent). -/
def idxOf (c : String) : List String → Nat
  | [] => 0
  | x :: xs => if x = c then 0 else idxOf c xs + 1

/-- Index of a column name (first occurrence, `len` when absent). -/
def colIdx (df : DataFrame) (c : String) : Nat := idxOf c df.cols

/-- Column presence test, `column in df.columns`. -/
def hasCol (df : DataFrame) (c : String) : Bool := decide (c ∈ df.cols)

/-- The cells of one column. -/
def getCol (df : DataFrame) (c : String) : List Value :=
  df.rows.map (fun r => r.getD (colIdx df c) (Value.num 0))

/-- Pointwise update of one column. -/
def mapCol (df : DataFrame) (c : String) (f : Value → Value) : DataFrame :=
  ⟨df.cols, df.rows.map (fun r =>
    r.set (colIdx df c) (f (r.getD (colIdx df c) (Value.num 0))))⟩

/-- `df[c] = vals`: overwrite the column when present, else append it
(pandas column assignment). -/
def setCol (df : DataFrame) (c : String) (vals : List Value) : DataFrame :=
  if hasCol df c then
    ⟨df.cols, (df.rows.zip vals).map (fun p => p.1.set (colIdx df c) p.2)⟩
  else
    ⟨df.cols ++ [c], (df.rows.zip vals).map (fun p => p.1 ++ [p.2])⟩

/-- `df[c]` as an `Except`: pandas raises `KeyError` on a missing column. -/
def getColE (df : DataFrame) (c : String) : Except String (List Value) :=
  if hasCol df c then .ok (getCol df c) else .error ("KeyError: " ++ c)

/-- Numeric view of a cell; non-numeric cells are a conversion error. -/
def toRatE (v : Value) : Except String Rat :=
  match v with
  | .num q => .ok q
  | .str s => .error ("could not convert string to float: " ++ s)

/-- Elementwise fallible map, first error wins. -/
def mapE {α β : Type} (f : α → Except String β) : List α → Except String (List β)
  | [] => .ok []
  | x :: xs => do
    let y ← f x
    let ys ← mapE f xs
    .ok (y :: ys)

/-- A whole column as numbers. -/
def numColE (df : DataFrame) (c : String) : Except String (List Rat) := do
  let vs ← getColE df c
  mapE toRatE vs

/-- Ascending insertion into a `le`-sorted list (stable: an inserted
element goes before the first element it `le`-relates to). -/
def insertLe {α : Type} (le : α → α → Bool) (x : α) : List α → List α
  | [] => [x]
  | y :: ys => if le x y then x :: y :: ys else y :: insertLe le x ys

/-- Stable insertion sort (same output as Python `list.sort`). -/
def sortLe {α : Type} (le : α → α → Bool) (xs : List α) : List α :=
  xs.foldr (insertLe le) []

/-- Sort rationals ascending (numpy sort inside pandas `quantile`). -/
def sortRat (xs : List Rat) : List Rat := sortLe (fun a b => decide (a ≤ b)) xs

/-- `Series.quantile(q)` with the pandas default linear interpolation:
at fractional position `q * (n - 1)` of the sorted values. -/
def quantileLin (xs : List Rat) (q : Rat) : Rat :=
  let s := sortRat xs
  let n := s.length
  if n = 0 then 0
  else
    let h : Rat := q * ((n : Rat) - 1)
    let i : Nat := (Int.floor h).toNat
    let lo := s.getD i 0
    let hi := s.getD (i + 1) lo
    lo + (h - (i : Rat)) * (hi - lo)

/-- The `q+1` bin edges `pd.qcut` computes: quantiles at `i/q`, `i = 0..q`. -/
def qcutEdges (xs : List Rat) (q : Nat) : List Rat :=
  (List.range (q + 1)).map (fun i => quantileLin xs ((i : Rat) / (q : Rat)))

/-- Any two adjacent bin edges equal (`qcut` raises `ValueError` then). -/
def dupEdges : List Rat → Bool
  | a :: b :: rest => a == b || dupEdges (b :: rest)
  | _ => false

/-- Which right-closed bin `(e_{j-1}, e_j]` a value falls in (the lowest
bin also contains its left edge); `none` when outside every bin. -/
def binOf (edges : List Rat) (v : Rat) : Option Nat :=
  match edges with
  | [] => none
  | e0 :: rest =>
    if v < e0 then none
    else
      let rec go : List Rat → Nat → Option Nat
        | [], _ => none
        | e :: es, j => if v ≤ e then some j else go es (j + 1)
      go rest 0

/-- `pd.qcut(xs, q, labels)`: quantile bin edges from the data itself,
then each value labelled by its bin. -/
def qcut (xs : List Rat) (q : Nat) (labels : List String) :
    Except String (List String) :=
  let edges := qcutEdges xs q
  if dupEdges edges then .error "ValueError: Bin edges must be unique"
  else
    mapE (fun v =>
      match binOf edges v with
      | some j => .ok (labels.getD j "")
      | none => .error "ValueError: value outside of bins") xs

/-- The fixed coastal state lists of `engineer_features`. -/
def west_coast_states : List String := ["California", "Oregon", "Washington"]

/-- The fixed east-coast state list of `engineer_features`. -/
def east_coast_states : List String := ["New York", "Massachusetts", "Florida"]

/-- `DataProcessor.engineer_features` (`app/services/data_processor.py`
lines 51-77): derives `mortality_rate`, `high_mortality` from the 75th
percentile of the given data, `is_male`, the 5-quantile
`mortality_category` and 3-quantile `population_density` buckets (edges
recomputed from the given data by `pd.qcut`), and the coast flags. -/
def engineer_features (df : DataFrame) : Except String DataFrame := do
  let deaths ← numColE df "deaths"
  let pop ← numColE df "population"
  let rates := List.zipWith (fun d p => d / p * 100000) deaths pop
  let df1 := setCol df "mortality_rate" (rates.map Value.num)
  let q75 := quantileLin rates (3 / 4)
  let df2 := setCol df1 "high_mortality"
    (rates.map (fun r => Value.num (if q75 < r then 1 else 0)))
  let gcol ← getColE df "gender"
  let df3 := setCol df2 "is_male"
    (gcol.map (fun v => Value.num (if v = Value.str "Male" then 1 else 0)))
  let cat5 ← qcut rates 5 ["Very Low", "Low", "Medium", "High", "Very High"]
  let df4 := setCol df3 "mortality_category" (cat5.map Value.str)
  let cat3 ← qcut pop 3 ["Low Density", "Medium Density", "High Density"]
  let df5 := setCol df4 "population_density" (cat3.map Value.str)
  let scol ← getColE df "state"
  let df6 := setCol df5 "is_west_coast"
    (scol.map (fun v =>
      Value.num (if west_coast_states.contains (match v with | .str s => s | .num _ => "") then 1 else 0)))
  let df7 := setCol df6 "is_east_coast"
    (scol.map (fun v =>
      Value.num (if east_coast_states.contains (match v with | .str s => s | .num _ => "") then 1 else 0)))
  .ok df7

/-! ### `DataProcessor.prepare_model_data` (fit / transform) -/

/-- Order on cells (string order on strings, numeric order on numbers)
used to model `np.unique`, which returns sorted classes. -/
def vle (a b : Value) : Bool :=
  match a, b with
  | .num x, .num y => decide (x ≤ y)
  | .str x, .str y => decide (x ≤ y)
  | .num _, .str _ => true
  | .str _, .num _ => false

/-- Index of a cell in a class list (first occurrence, `len` if absent):
the integer code a fitted `LabelEncoder` assigns. -/
def idxOfV (v : Value) : List Value → Nat
  | [] => 0
  | x :: xs => if x = v then 0 else idxOfV v xs + 1

/-- `LabelEncoder.fit`: the sorted distinct values of a column
(`np.unique`). -/
def sortedClasses (vals : List Value) : List Value := sortLe vle vals.dedup

/-- The label-encoder table `DataProcessor.label_encoders`: per column
name, the fitted class list if that encoder exists. -/
def Encoders : Type := String → Option (List Value)

/-- The fitted `StandardScaler`: per scaled column a mean and a scale
(sklearn stores `mean_` and `scale_`). -/
structure Scaler where
  means : List Rat
  scales : List Rat
deriving Repr

/-- `DataProcessor` state: the scaler (`none` before fit) and the
label-encoder table. -/
structure DataProcessor where
  scaler : Option Scaler
  label_encoders : Encoders

/-- A fresh `DataProcessor()`: unfitted scaler, empty encoder dict. -/
def DataProcessor.new : DataProcessor := ⟨none, fun _ => none⟩

/-- `DataProcessor.categorical_columns` (source lines 15-18). -/
def categorical_columns : List String :=
  ["county", "ten_year_age_groups", "gender", "icd_10_113_cause_list", "state"]

/-- `feature_columns` of `prepare_model_data` (source line 94). -/
def feature_columns : List String :=
  ["county", "ten_year_age_groups", "gender", "year", "population", "state"]

/-- The columns `prepare_model_data` scales (source lines 98-100). -/
def scaled_columns : List String := ["year", "population"]

/-- The fit loop of `prepare_model_data` (source lines 83-88): for each
categorical column present in the frame, fit a fresh encoder on the
column and replace the column by its codes. -/
def fitCats : List String → DataFrame → Encoders → DataFrame × Encoders
  | [], df, encs => (df, encs)
  | c :: rest, df, encs =>
    if hasCol df c then
      let classes := sortedClasses (getCol df c)
      fitCats rest (mapCol df c (fun v => .num (idxOfV v classes)))
        (fun c' => if c' = c then some classes else encs c')
    else fitCats rest df encs

/-- The transform loop of `prepare_model_data` (source lines 89-92): a
column is encoded only when it is present *and* its encoder exists — a
missing encoder is skipped silently; an unseen value makes the sklearn
encoder raise `ValueError`. -/
def transformCats : List String → DataFrame → Encoders → Except String DataFrame
  | [], df, _ => .ok df
  | c :: rest, df, encs =>
    if hasCol df c then
      match encs c with
      | some classes =>
        if (getCol df c).all (fun v => decide (v ∈ classes)) then
          transformCats rest (mapCol df c (fun v => .num (idxOfV v classes))) encs
        else .error "ValueError: y contains previously unseen labels"
      | none => transformCats rest df encs
    else transformCats rest df encs

/-- `df_encoded[feature_columns]`: column projection, `KeyError` when a
requested column is absent. -/
def selectCols (df : DataFrame) (cs : List String) : Except String DataFrame :=
  if cs.all (hasCol df) then
    .ok ⟨cs, df.rows.map (fun r => cs.map (fun c => r.getD (colIdx df c) (Value.num 0)))⟩
  else .error "KeyError: columns not in frame"

/-- Arithmetic mean (sklearn `mean_`). -/
def meanOf (xs : List Rat) : Rat := xs.sum / (xs.length : Rat)

/-- Population variance (sklearn `var_`, ddof 0). -/
def varOf (xs : List Rat) : Rat :=
  (xs.map (fun x => (x - meanOf xs) ^ 2)).sum / (xs.length : Rat)

/-- sklearn `scale_`: square root of the variance, with zero variance
replaced by 1 (`_handle_zeros_in_scale`). The square root itself is the
`sqrtFn` parameter. -/
def scaleOf (sqrtFn : Rat → Rat) (xs : List Rat) : Rat :=
  if varOf xs = 0 then 1 else sqrtFn (varOf xs)

/-- Apply `(x - mean) / scale` columnwise for the scaled columns. -/
def scalerApplyAux : List (String × Rat × Rat) → DataFrame → DataFrame
  | [], x => x
  | (c, m, s) :: rest, x =>
    scalerApplyAux rest
      (mapCol x c (fun v => .num (((match v with | .num q => q | .str _ => 0) - m) / s)))

/-- Apply a fitted scaler to the scaled columns of a frame. -/
def scalerApply (sc : Scaler) (x : DataFrame) : DataFrame :=
  scalerApplyAux (scaled_columns.zip (sc.means.zip sc.scales)) x

/-- `StandardScaler.fit_transform` on `X[scaled_columns]`: compute
means/scales from this very data, then apply them. Non-numeric cells
are a conversion error, as in sklearn. -/
def scalerFitTransform (sqrtFn : Rat → Rat) (x : DataFrame) :
    Except String (DataFrame × Scaler) := do
  let colVals ← mapE (fun c => numColE x c) scaled_columns
  let sc : Scaler := ⟨colVals.map meanOf, colVals.map (scaleOf sqrtFn)⟩
  .ok (scalerApply sc x, sc)

/-- `StandardScaler.transform` with previously fitted state. -/
def scalerTransform (sc : Scaler) (x : DataFrame) : Except String DataFrame := do
  let _ ← mapE (fun c => numColE x c) scaled_columns
  .ok (scalerApply sc x)

/-- pandas `Series.median`: middle of the sorted values, mean of the two
middles when the length is even. -/
def medianOf (xs : List Rat) : Rat :=
  let s := sortRat xs
  let n := s.length
  if n = 0 then 0
  else if n % 2 = 1 then s.getD (n / 2) 0
  else (s.getD (n / 2 - 1) 0 + s.getD (n / 2) 0) / 2

/-- `y = (df_encoded.deaths > df_encoded.deaths.median()).astype(int)`
(source line 102). -/
def computeLabels (df : DataFrame) : Except String (List Nat) := do
  let ds ← numColE df "deaths"
  let med := medianOf ds
  .ok (ds.map (fun d => if med < d then 1 else 0))

/-- `DataProcessor.prepare_model_data` (source lines 79-104). Returns
the feature matrix `X`, the labels `y` and the updated processor state.
With `fit_encoders = true` it fits encoders and scaler on the given
frame; with `false` it applies the stored state (raising on unseen
categories, silently skipping columns without an encoder, and raising
`NotFittedError` when the scaler was never fitted). -/
def prepare_model_data (sqrtFn : Rat → Rat) (dp : DataProcessor)
    (df : DataFrame) (fit_encoders : Bool) :
    Except String (DataFrame × List Nat × DataProcessor) :=
  if fit_encoders then
    let fe := fitCats categorical_columns df dp.label_encoders
    do
      let x0 ← selectCols fe.1 feature_columns
      let xs ← scalerFitTransform sqrtFn x0
      let y ← computeLabels fe.1
      .ok (xs.1, y, ⟨some xs.2, fe.2⟩)
  else do
    let dfe ← transformCats categorical_columns df dp.label_encoders
    let x0 ← selectCols dfe feature_columns
    match dp.scaler with
    | none => .error "NotFittedError: This StandardScaler instance is not fitted yet"
    | some sc => do
      let x1 ← scalerTransform sc x0
      let y ← computeLabels dfe
      .ok (x1, y, dp)

/-! ### `MLService.train_model` (training engine) -/

/-- Hyperparameters: named numeric settings (the kwargs dict). -/
def HP : Type := List (String × Rat)

/-- The fixed default hyperparameter table of `train_model`
(`ml_service.py` lines 41-52); `default_params.get(model_type, {})`. -/
def default_params (model_type : String) : HP :=
  if model_type = "random_forest" then
    [("n_estimators", 100), ("max_depth", 10), ("min_samples_split", 5),
     ("random_state", 42)]
  else if model_type = "logistic_regression" then
    [("random_state", 42), ("max_iter", 1000)]
  else []

/-- A fitted sklearn classifier: a class predictor, and the positive
class probability `predict_proba(x)[:, 1]` when the estimator has it. -/
structure FittedModel where
  predict : List Rat → Nat
  proba : Option (List Rat → Rat)

/-- The row indices `train_test_split(test_size = 0.2)` puts in the
train and validation parts: `permFn seed n` models the seeded numpy
shuffle; the first `ceil(n / 5)` shuffled indices are the validation
split, the rest the train split. -/
def splitIdx (permFn : Nat → Nat → List Nat) (seed n : Nat) :
    List Nat × List Nat :=
  let nTest := (n + 4) / 5
  let perm := permFn seed n
  (perm.drop nTest, perm.take nTest)

/-- Rows of a matrix at the given indices. -/
def rowsAt (x : List (List Rat)) (idx : List Nat) : List (List Rat) :=
  idx.map (fun i => x.getD i [])

/-- Labels at the given indices. -/
def labelsAt (y : List Nat) (idx : List Nat) : List Nat :=
  idx.map (fun i => y.getD i 0)

/-- `accuracy_score`. -/
def accuracyScore (yt yp : List Nat) : Rat :=
  (((yt.zip yp).countP (fun p => decide (p.1 = p.2))) : Rat) / (yt.length : Rat)

/-- The label set sklearn scores over: distinct values of truth and
prediction together. -/
def labelSet (yt yp : List Nat) : List Nat := (yt ++ yp).dedup

/-- True positives for one class. -/
def tpOf (yt yp : List Nat) (c : Nat) : Nat :=
  (yt.zip yp).countP (fun p => decide (p.1 = c ∧ p.2 = c))

/-- Per-class precision with sklearn zero-division policy (0). -/
def precOf (yt yp : List Nat) (c : Nat) : Rat :=
  (tpOf yt yp c : Rat) / (yp.count c : Rat)

/-- Per-class recall with sklearn zero-division policy (0). -/
def recOf (yt yp : List Nat) (c : Nat) : Rat :=
  (tpOf yt yp c : Rat) / (yt.count c : Rat)

/-- Per-class F1 (harmonic mean, 0 when both are 0). -/
def f1Of (yt yp : List Nat) (c : Nat) : Rat :=
  2 * precOf yt yp c * recOf yt yp c / (precOf yt yp c + recOf yt yp c)

/-- `precision_score(average = "weighted")`: support-weighted mean. -/
def weightedPrecision (yt yp : List Nat) : Rat :=
  ((labelSet yt yp).map (fun c => (yt.count c : Rat) * precOf yt yp c)).sum
    / (yt.length : Rat)

/-- `recall_score(average = "weighted")`. -/
def weightedRecall (yt yp : List Nat) : Rat :=
  ((labelSet yt yp).map (fun c => (yt.count c : Rat) * recOf yt yp c)).sum
    / (yt.length : Rat)

/-- `f1_score(average = "weighted")`. -/
def weightedF1 (yt yp : List Nat) : Rat :=
  ((labelSet yt yp).map (fun c => (yt.count c : Rat) * f1Of yt yp c)).sum
    / (yt.length : Rat)

/-- `roc_auc_score` for binary labels as the Mann-Whitney statistic:
the probability a positive scores above a negative, ties at half. -/
def rocAuc (yt : List Nat) (s : List Rat) : Rat :=
  let pairs := yt.zip s
  let pos := (pairs.filter (fun p => decide (p.1 = 1))).map (·.2)
  let neg := (pairs.filter (fun p => decide (p.1 ≠ 1))).map (·.2)
  (pos.map (fun a =>
    (neg.map (fun b => if b < a then (1 : Rat) else if a = b then 1 / 2 else 0)).sum)).sum
    / ((pos.length : Rat) * (neg.length : Rat))

/-- The metric dict `train_model` builds (`ml_service.py` lines 70-76). -/
structure Metrics where
  accuracy : Rat
  precision : Rat
  recall_score : Rat
  f1_score : Rat
  auc_score : Rat
deriving DecidableEq, Repr

/-- The validation-split metrics of `train_model`: all five scores from
the held-out truth/prediction pair, AUC 0.0 when the model exposes no
probabilities. -/
def evalMetrics (model : FittedModel) (xval : List (List Rat)) (yval : List Nat) :
    Metrics :=
  let ypred := xval.map model.predict
  { accuracy := accuracyScore yval ypred
    precision := weightedPrecision yval ypred
    recall_score := weightedRecall yval ypred
    f1_score := weightedF1 yval ypred
    auc_score :=
      match model.proba with
      | some p => rocAuc yval (xval.map p)
      | none => 0 }

/-- `MLService.train_model` (`ml_service.py` lines 29-86): defaults the
hyperparameters per family, splits 80/20 with `random_state = 42`, fits
on the train split (`fitFn` models the sklearn estimator), and scores
on the validation split only. `self.models[model_type]` raises
`KeyError` for a family outside the closed two-element table. -/
def train_model (permFn : Nat → Nat → List Nat)
    (fitFn : String → HP → List (List Rat) → List Nat → FittedModel)
    (x : List (List Rat)) (y : List Nat) (model_type : String)
    (hyperparameters : Option HP) :
    Except String (FittedModel × Metrics) :=
  let params := hyperparameters.getD (default_params model_type)
  let idx := splitIdx permFn 42 x.length
  if model_type = "random_forest" ∨ model_type = "logistic_regression" then
    let model := fitFn model_type params (rowsAt x idx.1) (labelsAt y idx.1)
    .ok (model, evalMetrics model (rowsAt x idx.2) (labelsAt y idx.2))
  else .error ("KeyError: " ++ model_type)

/-! ### Model registry (`MLService.save_model`, activate endpoint) -/

/-- A row of the `ml_models` table. -/
structure MLModel where
  id : Nat
  model_name : String
  model_version : String
  model_type : String
  accuracy : Rat
  precision : Rat
  recall_score : Rat
  f1_score : Rat
  auc_score : Rat
  is_active : Bool
  mlflow_run_id : String
  hyperparameters : String
  created_at : Nat
deriving DecidableEq, Repr

/-- The row `save_model` inserts (`ml_service.py` lines 153-165). -/
def newMLModel (model_name model_type : String) (metrics : Metrics)
    (hyperparameters mlflow_run_id : String) (newId now : Nat) : MLModel :=
  { id := newId
    model_name := model_name
    model_version := "1.0"
    model_type := model_type
    accuracy := metrics.accuracy
    precision := metrics.precision
    recall_score := metrics.recall_score
    f1_score := metrics.f1_score
    auc_score := metrics.auc_score
    is_active := true
    mlflow_run_id := mlflow_run_id
    hyperparameters := hyperparameters
    created_at := now }

/-- The bulk update `update({MLModel.is_active: False})` on the rows of
one type: deactivate a row when it is an active row of that type. -/
def deactivateOfType (t : String) (m : MLModel) : MLModel :=
  if m.model_type = t ∧ m.is_active then { m with is_active := false } else m

/-- `model.is_active = True` on the row with the given id. -/
def activateIfId (model_id : Nat) (m : MLModel) : MLModel :=
  if m.id = model_id then { m with is_active := true } else m

/-- `MLService.save_model` (`ml_service.py` lines 128-173): in one
session, set `is_active = false` on every active row of the same type,
then insert the new row with `is_active = true`; one commit. -/
def save_model (db : List MLModel) (model_name model_type : String)
    (metrics : Metrics) (hyperparameters mlflow_run_id : String)
    (newId now : Nat) : List MLModel :=
  db.map (deactivateOfType model_type)
  ++ [newMLModel model_name model_type metrics hyperparameters mlflow_run_id newId now]

/-- `activate_model` (`endpoints/models.py` lines 128-152): 404 when the
id is unknown; otherwise deactivate every active row of the target
type, then activate the target; one commit. -/
def activate_model (db : List MLModel) (model_id : Nat) :
    Except String (List MLModel) :=
  match db.find? (fun m => decide (m.id = model_id)) with
  | none => .error "404: Model not found"
  | some target =>
    .ok ((db.map (deactivateOfType target.model_type)).map (activateIfId model_id))

/-- The active rows of one type. -/
def activeOfType (t : String) (db : List MLModel) : List MLModel :=
  db.filter (fun m => decide (m.model_type = t ∧ m.is_active))

/-! ### Retention cleanup (script and Celery task) -/

/-- Descending-F1 comparison used by
`models.sort(key = lambda m: m.f1_score, reverse = True)`; Python sort
is stable, so ties keep their query order. -/
def byF1Desc (a b : MLModel) : Bool := decide (b.f1_score ≤ a.f1_score)

/-- The query filter of both cleanups: inactive and older than the
cutoff. -/
def oldInactive (cutoff : Nat) (m : MLModel) : Bool :=
  decide (m.created_at < cutoff) && !m.is_active

/-- The ids `ModelManager.cleanup_old_models` deletes: group the old
inactive rows by type, stably sort each group by F1 descending, keep
the first `keep_best`, delete the rest. -/
def retiredIds (cutoff keep_best : Nat) (db : List MLModel) : List Nat :=
  let old := db.filter (oldInactive cutoff)
  ((old.map (·.model_type)).dedup).flatMap (fun t =>
    (((old.filter (fun m => decide (m.model_type = t))).mergeSort byF1Desc).drop
      keep_best).map (·.id))

/-- `ModelManager.cleanup_old_models` (`scripts/model_management.py`
lines 137-183): collect the inactive rows older than the cutoff, group
them by type, stably sort each group by F1 descending, and delete
(file and row) everything past the first `keep_best` of each group. -/
def script_cleanup (cutoff keep_best : Nat) (db : List MLModel) : List MLModel :=
  db.filter (fun m => !(decide (m.id ∈ retiredIds cutoff keep_best db)))

/-- The Celery task `cleanup_old_models` (`tasks/training_tasks.py`
lines 195-232): its query (line 206) references `MLModel`, a name the
module never imports, so the task raises `NameError` inside its try
block, logs and re-raises, and deletes nothing — the registry comes
back unchanged (the returned pair is the task result that never
materialises, and the registry after the call). The cutoff computed at
line 203 is never consulted. -/
def task_cleanup (cutoff : Nat) (db : List MLModel) :
    Except String Nat × List MLModel :=
  (.error "NameError: name MLModel is not defined", db)

/-! ### Training submission endpoint and Celery training task -/

/-- A row of the `respiratory_mortality` table as the training task
reads it (`pd.read_sql`); `deaths` and `population` are nullable.
Engineered table columns not consumed by the pipeline before they are
overwritten are omitted from the projection. -/
structure MortRecord where
  county : String
  ten_year_age_groups : String
  gender : String
  year : Rat
  icd_10_113_cause_list : String
  deaths : Option Rat
  population : Option Rat
  crude_rate : String
  state : String
deriving DecidableEq, Repr

/-- The dataframe `pd.read_sql` builds from the filtered query rows. -/
def toDataFrame (rs : List MortRecord) : DataFrame :=
  ⟨["county", "ten_year_age_groups", "gender", "year",
    "icd_10_113_cause_list", "deaths", "population", "crude_rate", "state"],
   rs.map (fun r =>
     [.str r.county, .str r.ten_year_age_groups, .str r.gender, .num r.year,
      .str r.icd_10_113_cause_list, .num (r.deaths.getD 0),
      .num (r.population.getD 0), .str r.crude_rate, .str r.state])⟩

/-- The query filter of the training task: rows whose `deaths` and
`population` are both non-null. -/
def qualifies (r : MortRecord) : Bool := r.deaths.isSome && r.population.isSome

/-- `POST /models/train` request body (`schemas/mortality.py`). -/
structure TrainingRequest where
  model_type : String
  hyperparameters : Option HP
  experiment_name : String

/-- Externally visible side effects of the submission endpoint, in
order: the record-count query, then the Celery enqueue. -/
inductive Effect where
  | countQuery : Effect
  | enqueueTask : Effect
deriving DecidableEq, Repr

/-- `start_model_training` (`endpoints/models.py` lines 82-126): an
unknown family is rejected with HTTP 400 before anything else; for a
supported family the next statement (line 97) evaluates `func`, a name
`models.py` never imports, so the call raises `NameError` (surfacing as
HTTP 500) before the record count happens and before any Celery
enqueue — the 1000-record insufficiency rejection (lines 99-103) and
the `train_model_task.delay` below it (line 106) are unreachable. The
effect list records what was actually touched: nothing, on every
path. -/
def start_model_training (req : TrainingRequest) (records : List MortRecord) :
    Except String String × List Effect :=
  if req.model_type = "random_forest" ∨ req.model_type = "logistic_regression" then
    (.error "NameError: name func is not defined", [])
  else
    (.error "400: Invalid model type. Must be random_forest or logistic_regression",
     [])

/-- `train_model_task` (`tasks/training_tasks.py` lines 13-114): load
the non-null-filtered rows, raise `ValueError` under 1000 of them, then
engineer features, fit the pipeline, train, and `save_model` the result
as active. Returns the new model id, its metrics and the updated
registry. -/
def train_model_task (permFn : Nat → Nat → List Nat)
    (fitFn : String → HP → List (List Rat) → List Nat → FittedModel)
    (sqrtFn : Rat → Rat) (records : List MortRecord) (model_type : String)
    (hyperparameters : Option HP) (db : List MLModel) (newId now : Nat) :
    Except String (Nat × Metrics × List MLModel) := do
  let df := toDataFrame (records.filter qualifies)
  if df.rows.length < 1000 then .error "Insufficient data for training"
  else do
    let dfe ← engineer_features df
    let xyd ← prepare_model_data sqrtFn DataProcessor.new dfe true
    let mm ← train_model permFn fitFn
      (xyd.1.rows.map (fun r => r.map (fun v => match v with | .num q => q | .str _ => 0)))
      xyd.2.1 model_type hyperparameters
    let model_name := model_type ++ "_" ++ toString now
    let db' := save_model db model_name model_type mm.2 "{}" "" newId now
    .ok (newId, mm.2, db')

/-! ### `MLService.predict` -/

/-- The in-memory `MLService` singleton state: the mutable
`active_model` / `active_model_name` fields. -/
structure MLServiceState where
  active_model : Option FittedModel
  active_model_name : Option String

/-- `MLService.predict` (`ml_service.py` lines 201-213): raise
`ValueError` when no active model is loaded; otherwise predict, with
probabilities only when asked for and available. The state is not
modified and no model is trained or loaded here. -/
def predict (svc : MLServiceState) (features : List (List Rat))
    (return_probabilities : Bool) :
    Except String (List Nat × Option (List Rat)) :=
  match svc.active_model with
  | none => .error "No active model loaded. Please load a model first."
  | some m =>
    let preds := features.map m.predict
    match return_probabilities, m.proba with
    | true, some p => .ok (preds, some (features.map p))
    | _, _ => .ok (preds, none)

/-! ### Spec-side frozen-quantile pipeline (refinement target of C2) -/

/-- The quantile statistics the spec says belong in `PipelineState`:
the fit-time 75th percentile of `mortality_rate` and the 5- and
3-quantile bucket edges. -/
structure FrozenQuantiles where
  q75 : Rat
  edges5 : List Rat
  edges3 : List Rat
deriving Repr

/-- Fit-time computation of the frozen quantile state, per the spec:
the 75th percentile and quantile edges of the fit data. -/
def fitFrozenQuantiles (df : DataFrame) : Except String FrozenQuantiles := do
  let deaths ← numColE df "deaths"
  let pop ← numColE df "population"
  let rates := List.zipWith (fun d p => d / p * 100000) deaths pop
  .ok ⟨quantileLin rates (3 / 4), qcutEdges rates 5, qcutEdges pop 3⟩

/-- Bucket labels from frozen edges (the spec`s transform-time rule). -/
def cutWithEdges (edges : List Rat) (labels : List String) (xs : List Rat) :
    Except String (List String) :=
  if dupEdges edges then .error "ValueError: Bin edges must be unique"
  else
    mapE (fun v =>
      match binOf edges v with
      | some j => .ok (labels.getD j "")
      | none => .error "ValueError: value outside of bins") xs

/-- The spec`s version of `engineer_features`: identical derived-feature
rules, but `high_mortality` and both bucket features use the *frozen*
fit-time statistics instead of recomputing them from the given data.
Written from the spec to compare against the source behaviour. -/
def engineer_features_spec (st : FrozenQuantiles) (df : DataFrame) :
    Except String DataFrame := do
  let deaths ← numColE df "deaths"
  let pop ← numColE df "population"
  let rates := List.zipWith (fun d p => d / p * 100000) deaths pop
  let df1 := setCol df "mortality_rate" (rates.map Value.num)
  let df2 := setCol df1 "high_mortality"
    (rates.map (fun r => Value.num (if st.q75 < r then 1 else 0)))
  let gcol ← getColE df "gender"
  let df3 := setCol df2 "is_male"
    (gcol.map (fun v => Value.num (if v = Value.str "Male" then 1 else 0)))
  let cat5 ← cutWithEdges st.edges5
    ["Very Low", "Low", "Medium", "High", "Very High"] rates
  let df4 := setCol df3 "mortality_category" (cat5.map Value.str)
  let cat3 ← cutWithEdges st.edges3
    ["Low Density", "Medium Density", "High Density"] pop
  let df5 := setCol df4 "population_density" (cat3.map Value.str)
  let scol ← getColE df "state"
  let df6 := setCol df5 "is_west_coast"
    (scol.map (fun v =>
      Value.num (if west_coast_states.contains (match v with | .str s => s | .num _ => "") then 1 else 0)))
  let df7 := setCol df6 "is_east_coast"
    (scol.map (fun v =>
      Value.num (if east_coast_states.contains (match v with | .str s => s | .num _ => "") then 1 else 0)))
  .ok df7

/-! ### Concrete frames and registries used to instantiate the theorems -/

/-- The spec`s worked example: two records, deaths 25 of population
10000 and deaths 150 of population 50000. -/
def c9df : DataFrame :=
  ⟨["deaths", "population", "gender", "state"],
   [[.num 25, .num 10000, .str "Male", .str "California"],
    [.num 150, .num 50000, .str "Female", .str "Texas"]]⟩

/-- What `engineer_features` produces on `c9df`. -/
def c9out : DataFrame :=
  ⟨["deaths", "population", "gender", "state", "mortality_rate", "high_mortality",
    "is_male", "mortality_category", "population_density", "is_west_coast", "is_east_coast"],
   [[.num 25, .num 10000, .str "Male", .str "California", .num 250, .num 0, .num 1,
     .str "Very Low", .str "Low Density", .num 1, .num 0],
    [.num 150, .num 50000, .str "Female", .str "Texas", .num 300, .num 1, .num 0,
     .str "Very High", .str "High Density", .num 0, .num 0]]⟩

/-- A fit frame whose mortality rates are 100 and 500 (75th percentile
400), used to fit frozen quantile state. -/
def c2df1 : DataFrame :=
  ⟨["deaths", "population", "gender", "state"],
   [[.num 10, .num 10000, .str "Male", .str "California"],
    [.num 250, .num 50000, .str "Female", .str "Texas"]]⟩

/-- A transform frame whose own mortality rates are 250 and 300 (own
75th percentile 287.5, both under the frozen 400). -/
def c2df2 : DataFrame :=
  ⟨["deaths", "population", "gender", "state"],
   [[.num 25, .num 10000, .str "Male", .str "California"],
    [.num 150, .num 50000, .str "Female", .str "Texas"]]⟩

/-- The frozen quantile state fit on `c2df1`. -/
def c2st : FrozenQuantiles :=
  ⟨400, [100, 180, 260, 340, 420, 500],
   [10000, 70000 / 3, 110000 / 3, 50000]⟩

/-- A one-row raw frame with every column the pipeline consumes. -/
def c6df : DataFrame :=
  ⟨["county", "ten_year_age_groups", "gender", "year", "icd_10_113_cause_list",
    "deaths", "population", "state"],
   [[.str "A", .str "10", .str "Male", .num 2018, .str "J40", .num 25, .num 10000,
     .str "CA"]]⟩

/-- The fit call on `c6df` (the scaler square root is irrelevant on this
data and instantiated by the identity). -/
def c6fit : Except String (DataFrame × List Nat × DataProcessor) :=
  prepare_model_data id DataProcessor.new c6df true

/-- The fitted feature matrix of `c6fit`. -/
def c6X : DataFrame :=
  match c6fit with | .ok (x, _, _) => x | .error _ => ⟨[], []⟩

/-- The labels of `c6fit`. -/
def c6y : List Nat :=
  match c6fit with | .ok (_, yy, _) => yy | .error _ => []

/-- The processor state `c6fit` returns. -/
def c6dp : DataProcessor :=
  match c6fit with | .ok (_, _, d) => d | .error _ => DataProcessor.new

/-- A one-row fit frame that carries every model column but has no
`icd_10_113_cause_list` column, so no encoder is fitted for it. -/
def c3dfA : DataFrame :=
  ⟨["county", "ten_year_age_groups", "gender", "year", "population", "state", "deaths"],
   [[.str "A", .str "10", .str "Male", .num 2018, .num 10000, .str "CA", .num 25]]⟩

/-- The fit call on `c3dfA`. -/
def c3fit : Except String (DataFrame × List Nat × DataProcessor) :=
  prepare_model_data id DataProcessor.new c3dfA true

/-- The processor state fitted on `c3dfA`. -/
def c3dp : DataProcessor :=
  match c3fit with | .ok (_, _, d) => d | .error _ => DataProcessor.new

/-- A transform frame that *does* carry `icd_10_113_cause_list`, with
the same values as `c3dfA` otherwise. -/
def c3dfB : DataFrame :=
  ⟨["county", "ten_year_age_groups", "gender", "year", "population", "state", "deaths",
    "icd_10_113_cause_list"],
   [[.str "A", .str "10", .str "Male", .num 2018, .num 10000, .str "CA", .num 25,
     .str "J40"]]⟩

/-- A transform frame with a county value never seen at fit time. -/
def c3dfU : DataFrame :=
  ⟨["county", "ten_year_age_groups", "gender", "year", "population", "state", "deaths"],
   [[.str "B", .str "10", .str "Male", .num 2018, .num 10000, .str "CA", .num 25]]⟩

/-- A metrics record with unit scores, for concrete registries. -/
def c1met : Metrics := ⟨1, 1, 1, 1, 1⟩

/-- A concrete registry: one active random_forest row (id 1) and one
active logistic_regression row (id 2). -/
def c1db : List MLModel :=
  [newMLModel "m1" "random_forest" c1met "{}" "" 1 5,
   newMLModel "m0" "logistic_regression" c1met "{}" "" 2 6]

/-- The registry after `activate_model c1db 1`. -/
def c1act : List MLModel :=
  match activate_model c1db 1 with | .ok d => d | .error _ => []

/-- An old inactive random_forest artifact with the best F1 (1). -/
def c8best : MLModel :=
  { newMLModel "old_rf" "random_forest" c1met "{}" "" 1 0 with is_active := false }

/-- An old inactive random_forest artifact with the worst F1 (0). -/
def c8worst : MLModel :=
  { newMLModel "old_rf2" "random_forest" ⟨0, 0, 0, 0, 0⟩ "{}" "" 2 0 with is_active := false }

/-- An active random_forest artifact. -/
def c8active : MLModel := newMLModel "live_rf" "random_forest" c1met "{}" "" 3 0

/-- A concrete registry for the retention theorems. -/
def c8db : List MLModel := [c8best, c8worst, c8active]

/-- An old inactive random_forest artifact, listed first, created
earlier (created_at 0), F1 equal to its sibling. -/
def c8tieOld : MLModel :=
  { newMLModel "rf_a" "random_forest" c1met "{}" "" 1 0 with is_active := false }

/-- An old inactive random_forest artifact, listed second, created
later (created_at 5), with the same F1. -/
def c8tieNew : MLModel :=
  { newMLModel "rf_b" "random_forest" c1met "{}" "" 2 5 with is_active := false }

/-- A mortality record with null deaths and population: it is counted
by the submission endpoint but filtered out by the training task. -/
def nullRec : MortRecord :=
  ⟨"c", "a", "g", 2018, "i", none, none, "cr", "s"⟩

/-- 1000 null records: enough for the endpoint count, nothing for the
task. -/
def c4recs : List MortRecord := List.replicate 1000 nullRec

/-- A valid training request. -/
def c4req : TrainingRequest :=
  ⟨"random_forest", none, "respiratory_mortality_prediction"⟩

/-- The spec`s example request with an unsupported family. -/
def c5req : TrainingRequest :=
  ⟨"unsupported_model", none, "respiratory_mortality_prediction"⟩

/-- An identity-permutation stand-in for the seeded numpy shuffle. -/
def c7perm : Nat → Nat → List Nat := fun _ n => List.range n

/-- A trivial constant classifier stand-in for sklearn fitting, with no
`predict_proba`. -/
def c7fit : String → HP → List (List Rat) → List Nat → FittedModel :=
  fun _ _ _ _ => ⟨fun _ => 0, none⟩

/-- Five rows of one feature. -/
def c7x : List (List Rat) := [[1], [2], [3], [4], [5]]

/-- Five labels. -/
def c7y : List Nat := [0, 1, 0, 1, 0]

/-- An `MLService` with no model loaded. -/
def svcEmpty : MLServiceState := ⟨none, none⟩

/-- Well-formed frame: every row has one cell per column. -/
def wfDF (df : DataFrame) : Prop := ∀ r ∈ df.rows, r.length = df.cols.length

/-! ### Generic lemmas about column access and update -/

theorem idxOf_lt_length {c : String} : ∀ {cols : List String}, c ∈ cols →
    idxOf c cols < cols.length := by
  intro cols
  induction cols with
  | nil => intro h; cases h
  | cons x xs ih =>
    intro h
    by_cases hx : x = c
    · simp [idxOf, hx]
    · have h2 : c ∈ xs := by
        cases List.mem_cons.mp h with
        | inl hh => exact absurd hh.symm hx
        | inr hh => exact hh
      simpa [idxOf, hx] using ih h2

theorem idxOf_eq_length {c : String} : ∀ {cols : List String}, c ∉ cols →
    idxOf c cols = cols.length := by
  intro cols
  induction cols with
  | nil => intro _; rfl
  | cons x xs ih =>
    intro h
    have hx : ¬x = c := fun hh => h (hh ▸ List.mem_cons_self x xs)
    have hxs : c ∉ xs := fun hh => h (List.mem_cons_of_mem x hh)
    simp [idxOf, hx, ih hxs]

theorem idxOf_ne {c c' : String} (hne : c ≠ c') : ∀ {cols : List String},
    c ∈ cols → c' ∈ cols → idxOf c cols ≠ idxOf c' cols := by
  intro cols
  induction cols with
  | nil => intro h; cases h
  | cons x xs ih =>
    intro hc hc'
    by_cases hx : x = c
    · have hx' : ¬x = c' := fun hh => hne (hx ▸ hh ▸ rfl)
      simp [idxOf, hx, hx', hne]
    · by_cases hx' : x = c'
      · have hcc : ¬(c' = c) := fun hh => hne hh.symm
        simp [idxOf, hx, hx', hcc]
      · have hc2 : c ∈ xs := by
          cases List.mem_cons.mp hc with
          | inl hh => exact absurd hh.symm hx
          | inr hh => exact hh
        have hc'2 : c' ∈ xs := by
          cases List.mem_cons.mp hc' with
          | inl hh => exact absurd hh.symm hx'
          | inr hh => exact hh
        have := ih hc2 hc'2
        simp only [idxOf, hx, hx', if_false]
        omega

theorem idxOf_append_self {c : String} : ∀ {cols : List String}, c ∉ cols →
    idxOf c (cols ++ [c]) = cols.length := by
  intro cols
  induction cols with
  | nil => intro _; simp [idxOf]
  | cons x xs ih =>
    intro h
    have hx : ¬x = c := fun hh => h (hh ▸ List.mem_cons_self x xs)
    have hxs : c ∉ xs := fun hh => h (List.mem_cons_of_mem x hh)
    simp [idxOf, hx, ih hxs]

theorem idxOf_append_of_mem {c d : String} : ∀ {cols : List String}, c ∈ cols →
    idxOf c (cols ++ [d]) = idxOf c cols := by
  intro cols
  induction cols with
  | nil => intro h; cases h
  | cons x xs ih =>
    intro h
    by_cases hx : x = c
    · simp [idxOf, hx]
    · have hc2 : c ∈ xs := by
        cases List.mem_cons.mp h with
        | inl hh => exact absurd hh.symm hx
        | inr hh => exact hh
      simp [idxOf, hx, ih hc2]

theorem idxOf_append_of_not_mem {c d : String} (hne : c ≠ d) :
    ∀ {cols : List String}, c ∉ cols →
    idxOf c (cols ++ [d]) = cols.length + 1 := by
  intro cols
  induction cols with
  | nil => intro _; simp [idxOf, Ne.symm hne]
  | cons x xs ih =>
    intro h
    have hx : ¬x = c := fun hh => h (hh ▸ List.mem_cons_self x xs)
    have hxs : c ∉ xs := fun hh => h (List.mem_cons_of_mem x hh)
    simp [idxOf, hx, ih hxs]

theorem length_getCol (df : DataFrame) (c : String) :
    (getCol df c).length = df.rows.length := by simp [getCol]

theorem mapE_ok_length {α β : Type} {f : α → Except String β} :
    ∀ {xs : List α} {ys : List β}, mapE f xs = .ok ys → ys.length = xs.length := by
  intro xs
  induction xs with
  | nil => intro ys h; cases h; rfl
  | cons x xs ih =>
    intro ys h
    cases hx : f x with
    | error e => rw [mapE, hx] at h; cases h
    | ok y =>
      cases hrest : mapE f xs with
      | error e => rw [mapE, hx, hrest] at h; cases h
      | ok ys' =>
        rw [mapE, hx, hrest] at h
        cases h
        simp [ih hrest]

theorem numColE_ok_length {df : DataFrame} {c : String} {qs : List Rat}
    (h : numColE df c = .ok qs) : qs.length = df.rows.length := by
  unfold numColE getColE at h
  by_cases hc : hasCol df c
  · rw [if_pos hc] at h
    have h2 : mapE toRatE (getCol df c) = .ok qs := h
    have := mapE_ok_length h2
    simpa [length_getCol] using this
  · rw [if_neg hc] at h
    cases h

theorem zipSetGet (i : Nat) (d : Value) :
    ∀ (rows : List (List Value)) (vals : List Value),
    vals.length = rows.length → (∀ r ∈ rows, i < r.length) →
    ((rows.zip vals).map (fun p => p.1.set i p.2)).map (fun r => r.getD i d) = vals := by
  intro rows
  induction rows with
  | nil =>
    intro vals hlen _
    cases vals with
    | nil => rfl
    | cons v vs => simp at hlen
  | cons r rs ih =>
    intro vals hlen hidx
    cases vals with
    | nil => simp at hlen
    | cons v vs =>
      simp only [List.zip_cons_cons, List.map_cons]
      have h1 : i < r.length := hidx r (List.mem_cons_self r rs)
      have e : (r.set i v).getD i d = v := by
        simp [List.getD_eq_getElem?_getD, List.getElem?_set_self h1]
      rw [e, ih vs (by simpa using hlen) (fun r hr => hidx r (List.mem_cons_of_mem _ hr))]

theorem zipAppendGet (L : Nat) (d : Value) :
    ∀ (rows : List (List Value)) (vals : List Value),
    vals.length = rows.length → (∀ r ∈ rows, r.length = L) →
    ((rows.zip vals).map (fun p => p.1 ++ [p.2])).map (fun r => r.getD L d) = vals := by
  intro rows
  induction rows with
  | nil =>
    intro vals hlen _
    cases vals with
    | nil => rfl
    | cons v vs => simp at hlen
  | cons r rs ih =>
    intro vals hlen hL
    cases vals with
    | nil => simp at hlen
    | cons v vs =>
      simp only [List.zip_cons_cons, List.map_cons]
      have h1 : r.length = L := hL r (List.mem_cons_self r rs)
      have e : (r ++ [v]).getD L d = v := by
        rw [List.getD_eq_getElem?_getD, List.getElem?_append_right (by omega)]
        simp [h1]
      rw [e, ih vs (by simpa using hlen) (fun r hr => hL r (List.mem_cons_of_mem _ hr))]

theorem zipSetGetNe (i j : Nat) (hij : i ≠ j) (d : Value) :
    ∀ (rows : List (List Value)) (vals : List Value),
    vals.length = rows.length →
    ((rows.zip vals).map (fun p => p.1.set i p.2)).map (fun r => r.getD j d)
      = rows.map (fun r => r.getD j d) := by
  intro rows
  induction rows with
  | nil => intro vals _; rfl
  | cons r rs ih =>
    intro vals hlen
    cases vals with
    | nil => simp at hlen
    | cons v vs =>
      simp only [List.zip_cons_cons, List.map_cons]
      have e : (r.set i v).getD j d = r.getD j d := by
        simp [List.getD_eq_getElem?_getD, List.getElem?_set_ne hij]
      rw [e, ih vs (by simpa using hlen)]

theorem zipAppendGetLt (j : Nat) (d : Value) :
    ∀ (rows : List (List Value)) (vals : List Value),
    vals.length = rows.length → (∀ r ∈ rows, j < r.length) →
    ((rows.zip vals).map (fun p => p.1 ++ [p.2])).map (fun r => r.getD j d)
      = rows.map (fun r => r.getD j d) := by
  intro rows
  induction rows with
  | nil => intro vals _ _; rfl
  | cons r rs ih =>
    intro vals hlen hj
    cases vals with
    | nil => simp at hlen
    | cons v vs =>
      simp only [List.zip_cons_cons, List.map_cons]
      have h1 : j < r.length := hj r (List.mem_cons_self r rs)
      have e : (r ++ [v]).getD j d = r.getD j d := by
        rw [List.getD_eq_getElem?_getD, List.getD_eq_getElem?_getD, List.getElem?_append]
        rw [if_pos h1]
      rw [e, ih vs (by simpa using hlen) (fun r hr => hj r (List.mem_cons_of_mem _ hr))]

theorem zipAppendGetGe (L : Nat) (d : Value) :
    ∀ (rows : List (List Value)) (vals : List Value),
    vals.length = rows.length → (∀ r ∈ rows, r.length = L) →
    ((rows.zip vals).map (fun p => p.1 ++ [p.2])).map (fun r => r.getD (L + 1) d)
      = rows.map (fun r => r.getD L d) := by
  intro rows
  induction rows with
  | nil => intro vals _ _; rfl
  | cons r rs ih =>
    intro vals hlen hL
    cases vals with
    | nil => simp at hlen
    | cons v vs =>
      simp only [List.zip_cons_cons, List.map_cons]
      have h1 : r.length = L := hL r (List.mem_cons_self r rs)
      have e1 : (r ++ [v]).getD (L + 1) d = d := by
        rw [List.getD_eq_getElem?_getD, List.getElem?_eq_none (by simp [h1])]
        rfl
      have e2 : r.getD L d = d := by
        rw [List.getD_eq_getElem?_getD, List.getElem?_eq_none (by omega)]
        rfl
      rw [e1, e2, ih vs (by simpa using hlen) (fun r hr => hL r (List.mem_cons_of_mem _ hr))]

theorem rows_length_setCol (df : DataFrame) (c : String) (vals : List Value)
    (hlen : vals.length = df.rows.length) :
    (setCol df c vals).rows.length = df.rows.length := by
  unfold setCol
  by_cases hc : hasCol df c <;> simp [hc, hlen]

theorem wf_setCol {df : DataFrame} {c : String} {vals : List Value}
    (hwf : wfDF df) (hlen : vals.length = df.rows.length) :
    wfDF (setCol df c vals) := by
  unfold setCol
  by_cases hc : hasCol df c <;>
    simp only [hc, if_true, if_false, Bool.false_eq_true] <;>
      intro r hr <;> simp only [List.mem_map] at hr <;>
        obtain ⟨p, hp, rfl⟩ := hr <;>
          have hp1 : p.1 ∈ df.rows := (List.of_mem_zip hp).1
  · simp [hwf p.1 hp1]
  · simp [hwf p.1 hp1]

theorem getCol_setCol_self {df : DataFrame} {c : String} {vals : List Value}
    (hwf : wfDF df) (hlen : vals.length = df.rows.length) :
    getCol (setCol df c vals) c = vals := by
  unfold setCol
  by_cases hc : hasCol df c <;> simp only [hc, if_true, if_false, Bool.false_eq_true]
  · have hmem : c ∈ df.cols := by simpa [hasCol] using hc
    show ((df.rows.zip vals).map (fun p => p.1.set (colIdx df c) p.2)).map
        (fun r => r.getD (colIdx df c) (Value.num 0)) = vals
    exact zipSetGet (colIdx df c) (Value.num 0) df.rows vals hlen
      (fun r hr => by rw [hwf r hr]; exact idxOf_lt_length hmem)
  · have hmem : c ∉ df.cols := by simpa [hasCol] using hc
    unfold getCol colIdx
    simp only
    rw [idxOf_append_self hmem]
    exact zipAppendGet df.cols.length (Value.num 0) df.rows vals hlen hwf

theorem getCol_setCol_ne {df : DataFrame} {c c' : String} {vals : List Value}
    (hne : c' ≠ c) (hwf : wfDF df) (hlen : vals.length = df.rows.length) :
    getCol (setCol df c vals) c' = getCol df c' := by
  unfold setCol
  by_cases hc : hasCol df c <;> simp only [hc, if_true, if_false, Bool.false_eq_true]
  · have hmem : c ∈ df.cols := by simpa [hasCol] using hc
    have hii : idxOf c df.cols ≠ idxOf c' df.cols := by
      by_cases hc' : c' ∈ df.cols
      · exact idxOf_ne (fun hh => hne hh.symm) hmem hc'
      · rw [idxOf_eq_length hc']
        exact Nat.ne_of_lt (idxOf_lt_length hmem)
    unfold getCol colIdx
    simp only
    exact zipSetGetNe (idxOf c df.cols) (idxOf c' df.cols) hii (Value.num 0)
      df.rows vals hlen
  · have hmem : c ∉ df.cols := by simpa [hasCol] using hc
    unfold getCol colIdx
    simp only
    by_cases hc' : c' ∈ df.cols
    · rw [idxOf_append_of_mem hc']
      exact zipAppendGetLt (idxOf c' df.cols) (Value.num 0) df.rows vals hlen
        (fun r hr => by rw [hwf r hr]; exact idxOf_lt_length hc')
    · rw [idxOf_append_of_not_mem hne hc', idxOf_eq_length hc']
      exact zipAppendGetGe df.cols.length (Value.num 0) df.rows vals hlen hwf

theorem except_bind_ok {α β : Type} {e : Except String α} {f : α → Except String β}
    {b : β} (h : (e >>= f) = .ok b) : ∃ a, e = .ok a ∧ f a = .ok b := by
  cases e with
  | error s => cases h
  | ok a => exact ⟨a, rfl, h⟩

theorem getColE_ok {df : DataFrame} {c : String} {vs : List Value}
    (h : getColE df c = .ok vs) : vs = getCol df c ∧ hasCol df c = true := by
  unfold getColE at h
  by_cases hc : hasCol df c
  · rw [if_pos hc] at h
    exact ⟨(Except.ok.inj h).symm, hc⟩
  · rw [if_neg hc] at h
    cases h

/-! ### C9: the engineered mortality rate -/

/-- C9: for every input record of a frame `engineer_features` accepts,
the engineered `mortality_rate` column is exactly
`deaths / population * 100000`, rowwise. -/
theorem mortality_rate_eq (df df' : DataFrame) (deaths pop : List Rat)
    (hwf : wfDF df)
    (hd : numColE df "deaths" = .ok deaths)
    (hp : numColE df "population" = .ok pop)
    (hok : engineer_features df = .ok df') :
    getCol df' "mortality_rate"
      = (List.zipWith (fun d p => d / p * 100000) deaths pop).map Value.num := by
  unfold engineer_features at hok
  obtain ⟨d1, hd1, hok⟩ := except_bind_ok hok
  rw [hd] at hd1
  obtain rfl : deaths = d1 := Except.ok.inj hd1
  obtain ⟨p1, hp1, hok⟩ := except_bind_ok hok
  rw [hp] at hp1
  obtain rfl : pop = p1 := Except.ok.inj hp1
  obtain ⟨gcol, hg, hok⟩ := except_bind_ok hok
  obtain ⟨cat5, h5, hok⟩ := except_bind_ok hok
  obtain ⟨cat3, h3, hok⟩ := except_bind_ok hok
  obtain ⟨scol, hs, hok⟩ := except_bind_ok hok
  obtain rfl := (Except.ok.inj hok).symm
  -- lengths of every assigned column
  have hnd : deaths.length = df.rows.length := numColE_ok_length hd
  have hnp : pop.length = df.rows.length := numColE_ok_length hp
  have hrates : (List.zipWith (fun d p => d / p * 100000) deaths pop).length
      = df.rows.length := by simp [hnd, hnp]
  have hgc : gcol.length = df.rows.length := by
    rw [(getColE_ok hg).1]; exact length_getCol df "gender"
  have hsc : scol.length = df.rows.length := by
    rw [(getColE_ok hs).1]; exact length_getCol df "state"
  have h5l : cat5.length = df.rows.length := by
    unfold qcut at h5
    by_cases hdup : dupEdges (qcutEdges (List.zipWith (fun d p => d / p * 100000) deaths pop) 5)
    · rw [if_pos hdup] at h5; cases h5
    · rw [if_neg hdup] at h5
      rw [mapE_ok_length h5, hrates]
  have h3l : cat3.length = df.rows.length := by
    unfold qcut at h3
    by_cases hdup : dupEdges (qcutEdges pop 3)
    · rw [if_pos hdup] at h3; cases h3
    · rw [if_neg hdup] at h3
      rw [mapE_ok_length h3, hnp]
  -- chain of wellformedness / row-length facts through the assignments
  set rates := List.zipWith (fun d p => d / p * 100000) deaths pop with hratesdef
  have l1 : (rates.map Value.num).length = df.rows.length := by simpa using hrates
  have w1 := @wf_setCol df "mortality_rate" (rates.map Value.num) hwf l1
  have r1 := rows_length_setCol df "mortality_rate" (rates.map Value.num) l1
  set df1 := setCol df "mortality_rate" (rates.map Value.num) with hdf1
  have l2 : ((rates.map (fun r => Value.num (if quantileLin rates (3/4) < r then 1 else 0))).length)
      = df1.rows.length := by simpa [r1] using hrates
  have w2 := wf_setCol (c := "high_mortality") w1 l2
  have r2 := rows_length_setCol df1 "high_mortality" _ l2
  set df2 := setCol df1 "high_mortality"
    (rates.map (fun r => Value.num (if quantileLin rates (3/4) < r then 1 else 0))) with hdf2
  have l3 : ((gcol.map (fun v => Value.num (if v = Value.str "Male" then 1 else 0))).length)
      = df2.rows.length := by simpa [r2, r1] using hgc
  have w3 := wf_setCol (c := "is_male") w2 l3
  have r3 := rows_length_setCol df2 "is_male" _ l3
  set df3 := setCol df2 "is_male"
    (gcol.map (fun v => Value.num (if v = Value.str "Male" then 1 else 0))) with hdf3
  have l4 : (cat5.map Value.str).length = df3.rows.length := by
    simpa [r3, r2, r1] using h5l
  have w4 := wf_setCol (c := "mortality_category") w3 l4
  have r4 := rows_length_setCol df3 "mortality_category" _ l4
  set df4 := setCol df3 "mortality_category" (cat5.map Value.str) with hdf4
  have l5 : (cat3.map Value.str).length = df4.rows.length := by
    simpa [r4, r3, r2, r1] using h3l
  have w5 := wf_setCol (c := "population_density") w4 l5
  have r5 := rows_length_setCol df4 "population_density" _ l5
  set df5 := setCol df4 "population_density" (cat3.map Value.str) with hdf5
  have l6 : ((scol.map (fun v =>
      Value.num (if west_coast_states.contains (match v with | .str s => s | .num _ => "") then 1 else 0))).length)
      = df5.rows.length := by simpa [r5, r4, r3, r2, r1] using hsc
  have w6 := wf_setCol (c := "is_west_coast") w5 l6
  have r6 := rows_length_setCol df5 "is_west_coast" _ l6
  set df6 := setCol df5 "is_west_coast"
    (scol.map (fun v =>
      Value.num (if west_coast_states.contains (match v with | .str s => s | .num _ => "") then 1 else 0))) with hdf6
  have l7 : ((scol.map (fun v =>
      Value.num (if east_coast_states.contains (match v with | .str s => s | .num _ => "") then 1 else 0))).length)
      = df6.rows.length := by simpa [r6, r5, r4, r3, r2, r1] using hsc
  rw [getCol_setCol_ne (by decide) w6 l7]
  rw [getCol_setCol_ne (by decide) w5 l6]
  rw [getCol_setCol_ne (by decide) w4 l5]
  rw [getCol_setCol_ne (by decide) w3 l4]
  rw [getCol_setCol_ne (by decide) w2 l3]
  rw [getCol_setCol_ne (by decide) w1 l2]
  exact getCol_setCol_self hwf l1

set_option maxHeartbeats 4000000 in
/-- C9 witness: on the spec`s two example rows engineering succeeds and
the mortality rates are exactly 250.0 and 300.0. -/
theorem mortality_rate_eq_witness :
    engineer_features c9df = .ok c9out ∧
    getCol c9out "mortality_rate" = [Value.num 250, Value.num 300] := by
  have hok : engineer_features c9df = .ok c9out := by
    norm_num +decide [engineer_features, c9df, c9out, numColE, getColE, getCol, hasCol,
      colIdx, idxOf, mapE, toRatE, setCol, qcut, qcutEdges, quantileLin, sortRat, sortLe,
      insertLe, dupEdges, binOf, binOf.go, west_coast_states, east_coast_states,
      List.range_succ, Except.instMonad, Except.bind]
  refine ⟨hok, ?_⟩
  have h := mortality_rate_eq c9df c9out [25, 150] [10000, 50000]
    (by intro r hr; simp only [c9df, List.mem_cons, List.not_mem_nil, or_false] at hr
        rcases hr with rfl | rfl <;> simp [c9df])
    (by norm_num +decide [numColE, getColE, getCol, hasCol, colIdx, idxOf, mapE, toRatE,
          c9df, Except.instMonad, Except.bind])
    (by norm_num +decide [numColE, getColE, getCol, hasCol, colIdx, idxOf, mapE, toRatE,
          c9df, Except.instMonad, Except.bind])
    hok
  rw [h]
  norm_num

/-! ### C2: the quantile statistics are recomputed, not frozen -/

set_option maxHeartbeats 4000000 in
/-- C2 counterexample: `engineer_features` applied to `c2df2` computes
`high_mortality` against the 75th percentile of `c2df2` itself
(rates 250 and 300, threshold 287.5, so the flags are 0, 1), not
against the state frozen from the fit frame `c2df1` (threshold 400,
which would give 0, 0): the threshold is recomputed from whatever data
is passed, contradicting the claim that it is frozen and reused. -/
theorem quantiles_frozen_counterexample :
    fitFrozenQuantiles c2df1 = .ok c2st ∧
    (engineer_features c2df2).map (fun d => getCol d "high_mortality")
      = .ok [Value.num 0, Value.num 1] ∧
    (engineer_features_spec c2st c2df2).map (fun d => getCol d "high_mortality")
      = .ok [Value.num 0, Value.num 0] ∧
    [Value.num 0, Value.num 1] ≠ [Value.num (0 : Rat), Value.num 0] := by
  refine ⟨?_, ?_, ?_, by norm_num⟩
  · norm_num +decide [fitFrozenQuantiles, c2df1, c2st, numColE, getColE, getCol, hasCol,
      colIdx, idxOf, mapE, toRatE, qcutEdges, quantileLin, sortRat, sortLe, insertLe,
      List.range_succ, Except.instMonad, Except.bind]
  · norm_num +decide [engineer_features, c2df2, numColE, getColE, getCol, hasCol,
      colIdx, idxOf, mapE, toRatE, setCol, qcut, qcutEdges, quantileLin, sortRat, sortLe,
      insertLe, dupEdges, binOf, binOf.go, west_coast_states, east_coast_states,
      List.range_succ, Except.instMonad, Except.bind, Except.map]
  · norm_num +decide [engineer_features_spec, c2df2, c2st, numColE, getColE, getCol,
      hasCol, colIdx, idxOf, mapE, toRatE, setCol, cutWithEdges, dupEdges, binOf,
      binOf.go, west_coast_states, east_coast_states, Except.instMonad, Except.bind,
      Except.map]

/-- C2 amended: the 75th-percentile threshold and the quantile bucket
edges are recomputed by `engineer_features` from whatever frame it is
given, on every call; no statistic is frozen or reused. Equivalently,
the source behaviour coincides with the spec`s frozen-state semantics
exactly when the frozen state is refit on the very frame being
transformed. -/
theorem engineer_features_recomputes (df : DataFrame) (st : FrozenQuantiles)
    (hfit : fitFrozenQuantiles df = .ok st) :
    engineer_features df = engineer_features_spec st df := by
  unfold fitFrozenQuantiles at hfit
  obtain ⟨deaths, hd, hfit⟩ := except_bind_ok hfit
  obtain ⟨pop, hp, hfit⟩ := except_bind_ok hfit
  obtain rfl := (Except.ok.inj hfit).symm
  unfold engineer_features engineer_features_spec
  rw [hd, hp]
  rfl

set_option maxHeartbeats 1000000 in
/-- C2 amended witness: fitting the frozen state on `c2df1` itself makes
the source and the frozen-state pipeline agree on `c2df1`. -/
theorem engineer_features_recomputes_witness :
    fitFrozenQuantiles c2df1
      = .ok ⟨400, [100, 180, 260, 340, 420, 500], [10000, 70000 / 3, 110000 / 3, 50000]⟩ ∧
    engineer_features c2df1
      = engineer_features_spec
          ⟨400, [100, 180, 260, 340, 420, 500], [10000, 70000 / 3, 110000 / 3, 50000]⟩
          c2df1 := by
  have hfit : fitFrozenQuantiles c2df1
      = .ok ⟨400, [100, 180, 260, 340, 420, 500], [10000, 70000 / 3, 110000 / 3, 50000]⟩ := by
    norm_num +decide [fitFrozenQuantiles, c2df1, numColE, getColE, getCol, hasCol,
      colIdx, idxOf, mapE, toRatE, qcutEdges, quantileLin, sortRat, sortLe, insertLe,
      List.range_succ, Except.instMonad, Except.bind]
  exact ⟨hfit, engineer_features_recomputes c2df1 _ hfit⟩

/-! ### C6: transform on the fit input reproduces the fitted matrix -/

theorem mem_insertLe {α : Type} (le : α → α → Bool) (x a : α) :
    ∀ (l : List α), a ∈ insertLe le x l ↔ a = x ∨ a ∈ l := by
  intro l
  induction l with
  | nil => simp [insertLe]
  | cons y ys ih =>
    by_cases h : le x y
    · simp only [insertLe, h, if_true, List.mem_cons]
    · simp only [insertLe, h, if_false, Bool.false_eq_true, List.mem_cons, ih]
      tauto

theorem mem_sortLe {α : Type} (le : α → α → Bool) (a : α) :
    ∀ (xs : List α), a ∈ sortLe le xs ↔ a ∈ xs := by
  intro xs
  induction xs with
  | nil => simp [sortLe]
  | cons x l ih =>
    show a ∈ insertLe le x (sortLe le l) ↔ _
    rw [mem_insertLe, ih]
    simp [List.mem_cons]

theorem mem_sortedClasses {v : Value} {vals : List Value} (h : v ∈ vals) :
    v ∈ sortedClasses vals := by
  unfold sortedClasses
  rw [mem_sortLe]
  simpa using h

theorem fitCats_encs_stable {c' : String} :
    ∀ (cats : List String) (df : DataFrame) (encs : Encoders), c' ∉ cats →
    (fitCats cats df encs).2 c' = encs c' := by
  intro cats
  induction cats with
  | nil => intro df encs _; rfl
  | cons c rest ih =>
    intro df encs h
    have hc : ¬c' = c := fun hh => h (hh ▸ List.mem_cons_self c rest)
    have hrest : c' ∉ rest := fun hh => h (List.mem_cons_of_mem c hh)
    by_cases hcol : hasCol df c
    · have : fitCats (c :: rest) df encs
          = fitCats rest (mapCol df c (fun v => .num (idxOfV v (sortedClasses (getCol df c)))))
              (fun x => if x = c then some (sortedClasses (getCol df c)) else encs x) := by
        conv_lhs => rw [fitCats]
        rw [if_pos hcol]
      rw [this, ih _ _ hrest]
      simp [hc]
    · have : fitCats (c :: rest) df encs = fitCats rest df encs := by
        conv_lhs => rw [fitCats]
        rw [if_neg hcol]
      rw [this]
      exact ih _ _ hrest

theorem transformCats_cons_found {c : String} {rest : List String} {df : DataFrame}
    {encs : Encoders} {classes : List Value}
    (hcol : hasCol df c = true) (henc : encs c = some classes)
    (hall : (getCol df c).all (fun v => decide (v ∈ classes)) = true) :
    transformCats (c :: rest) df encs
      = transformCats rest (mapCol df c (fun v => .num (idxOfV v classes))) encs := by
  conv_lhs => rw [transformCats]
  rw [if_pos hcol, henc]
  simp only [hall, if_true]

theorem transformCats_fitCats :
    ∀ (cats : List String), cats.Nodup → ∀ (df : DataFrame) (encs0 : Encoders),
    transformCats cats df (fitCats cats df encs0).2 = .ok (fitCats cats df encs0).1 := by
  intro cats
  induction cats with
  | nil => intro _ df encs0; rfl
  | cons c rest ih =>
    intro hnd df encs0
    have hcrest : c ∉ rest := (List.nodup_cons.mp hnd).1
    have hndrest : rest.Nodup := (List.nodup_cons.mp hnd).2
    by_cases hcol : hasCol df c
    · have hfit : fitCats (c :: rest) df encs0
          = fitCats rest (mapCol df c (fun v => .num (idxOfV v (sortedClasses (getCol df c)))))
              (fun x => if x = c then some (sortedClasses (getCol df c)) else encs0 x) := by
        conv_lhs => rw [fitCats]
        rw [if_pos hcol]
      rw [hfit]
      have hE : (fitCats rest (mapCol df c (fun v => .num (idxOfV v (sortedClasses (getCol df c)))))
          (fun x => if x = c then some (sortedClasses (getCol df c)) else encs0 x)).2 c
          = some (sortedClasses (getCol df c)) := by
        rw [fitCats_encs_stable rest _ _ hcrest]
        simp
      have hall : (getCol df c).all
          (fun v => decide (v ∈ sortedClasses (getCol df c))) = true := by
        rw [List.all_eq_true]
        intro v hv
        simpa using mem_sortedClasses hv
      rw [transformCats_cons_found hcol hE hall]
      exact ih hndrest _ _
    · have hfit : fitCats (c :: rest) df encs0 = fitCats rest df encs0 := by
        conv_lhs => rw [fitCats]
        rw [if_neg hcol]
      rw [hfit]
      have : transformCats (c :: rest) df (fitCats rest df encs0).2
          = transformCats rest df (fitCats rest df encs0).2 := by
        conv_lhs => rw [transformCats]
        rw [if_neg hcol]
      rw [this]
      exact ih hndrest _ _


theorem scalerTransform_after_fit {sqrtFn : Rat → Rat} {x0 : DataFrame}
    {xs : DataFrame × Scaler} (hxs : scalerFitTransform sqrtFn x0 = .ok xs) :
    scalerTransform xs.2 x0 = .ok xs.1 := by
  unfold scalerFitTransform at hxs
  obtain ⟨colVals, hcv, hxs⟩ := except_bind_ok hxs
  have h : xs = (scalerApply ⟨colVals.map meanOf, colVals.map (scaleOf sqrtFn)⟩ x0,
      ⟨colVals.map meanOf, colVals.map (scaleOf sqrtFn)⟩) := (Except.ok.inj hxs).symm
  subst h
  unfold scalerTransform
  rw [hcv]
  rfl

/-- C6: for every valid fitted pipeline, applying transform
(`prepare_model_data` with `fit_encoders = False`) to the exact frame
the pipeline was fit on, with the fitted state, reproduces exactly the
feature matrix of the original fit call (labels and state included). -/
theorem transform_fit_input_eq (sqrtFn : Rat → Rat) (dp0 : DataProcessor)
    (df x : DataFrame) (y : List Nat) (dp1 : DataProcessor)
    (hfit : prepare_model_data sqrtFn dp0 df true = .ok (x, y, dp1)) :
    prepare_model_data sqrtFn dp1 df false = .ok (x, y, dp1) := by
  unfold prepare_model_data at hfit ⊢
  rw [if_pos rfl] at hfit
  rw [if_neg (by simp)]
  obtain ⟨x0, hx0, hfit⟩ := except_bind_ok hfit
  obtain ⟨xs, hxs, hfit⟩ := except_bind_ok hfit
  obtain ⟨yy, hyy, hfit⟩ := except_bind_ok hfit
  have heq := Except.ok.inj hfit
  injection heq with h1 h2
  injection h2 with h2 h3
  subst h1 h2 h3
  rw [show (DataProcessor.mk (some xs.2) (fitCats categorical_columns df dp0.label_encoders).2).label_encoders
      = (fitCats categorical_columns df dp0.label_encoders).2 from rfl]
  rw [transformCats_fitCats categorical_columns (by decide) df dp0.label_encoders]
  show (do
    let x0' ← selectCols (fitCats categorical_columns df dp0.label_encoders).1 feature_columns
    match (DataProcessor.mk (some xs.2) (fitCats categorical_columns df dp0.label_encoders).2).scaler with
    | none => Except.error "NotFittedError: This StandardScaler instance is not fitted yet"
    | some sc => do
      let x1 ← scalerTransform sc x0'
      let y' ← computeLabels (fitCats categorical_columns df dp0.label_encoders).1
      Except.ok (x1, y', DataProcessor.mk (some xs.2) (fitCats categorical_columns df dp0.label_encoders).2)) = _
  rw [hx0]
  show (do
    let x1 ← scalerTransform xs.2 x0
    let y' ← computeLabels (fitCats categorical_columns df dp0.label_encoders).1
    Except.ok (x1, y', DataProcessor.mk (some xs.2) (fitCats categorical_columns df dp0.label_encoders).2)) = _
  rw [scalerTransform_after_fit hxs]
  show (do
    let y' ← computeLabels (fitCats categorical_columns df dp0.label_encoders).1
    Except.ok (xs.1, y', DataProcessor.mk (some xs.2) (fitCats categorical_columns df dp0.label_encoders).2)) = _
  rw [hyy]
  rfl

set_option maxHeartbeats 4000000 in
/-- The concrete one-row fit succeeds. -/
theorem c6fit_isOk : c6fit.isOk = true := by
  norm_num +decide [c6fit, prepare_model_data, DataProcessor.new, c6df, fitCats,
    sortedClasses, sortLe, insertLe, vle, idxOfV, mapCol, getCol, hasCol, colIdx, idxOf,
    selectCols, scalerFitTransform, scalerApply, scalerApplyAux, scaled_columns, meanOf,
    varOf, scaleOf, numColE, getColE, mapE, toRatE, computeLabels, medianOf, sortRat,
    categorical_columns, feature_columns, Except.instMonad, Except.bind, Except.isOk,
    List.dedup_nil, List.dedup_cons_of_not_mem]

/-- C6 witness: on the concrete one-row frame, fitting succeeds and the
transform call on the same frame with the fitted state returns the very
same matrix, labels and state. -/
theorem transform_fit_input_eq_witness :
    c6fit = .ok (c6X, c6y, c6dp) ∧
    prepare_model_data id c6dp c6df false = .ok (c6X, c6y, c6dp) := by
  obtain ⟨t, ht⟩ : ∃ t, c6fit = .ok t := by
    have h := c6fit_isOk
    cases hh : c6fit with
    | ok t => exact ⟨t, rfl⟩
    | error e => rw [hh] at h; simp [Except.isOk, Except.toBool] at h
  obtain ⟨x1, y1, d1⟩ := t
  have hX : c6X = x1 := by simp [c6X, ht]
  have hY : c6y = y1 := by simp [c6y, ht]
  have hD : c6dp = d1 := by simp [c6dp, ht]
  rw [hX, hY, hD, ht]
  exact ⟨rfl, transform_fit_input_eq id DataProcessor.new c6df x1 y1 d1 ht⟩


/-! ### C3: transform-time behaviour on unseen categories and missing encoders -/

theorem getCol_mapCol_ne {df : DataFrame} {c c' : String} {f : Value → Value}
    (hnd : df.cols.Nodup) (hc : c ∈ df.cols) (hne : c' ≠ c) :
    getCol (mapCol df c f) c' = getCol df c' := by
  unfold getCol mapCol colIdx
  simp only
  rw [List.map_map]
  apply List.map_congr_left
  intro r _
  have hii : idxOf c df.cols ≠ idxOf c' df.cols := by
    by_cases hc' : c' ∈ df.cols
    · exact idxOf_ne (Ne.symm hne) hc hc'
    · have h1 : idxOf c' df.cols = df.cols.length := idxOf_eq_length hc'
      have h2 : idxOf c df.cols < df.cols.length := idxOf_lt_length hc
      omega
  simp [List.getD_eq_getElem?_getD, List.getElem?_set_ne hii]

theorem transformCats_error_of_unseen :
    ∀ (cats : List String), cats.Nodup → ∀ (df : DataFrame) (encs : Encoders),
    df.cols.Nodup →
    (∃ c ∈ cats, hasCol df c = true ∧ ∃ classes, encs c = some classes ∧
      ¬((getCol df c).all (fun v => decide (v ∈ classes)) = true)) →
    transformCats cats df encs = .error "ValueError: y contains previously unseen labels" := by
  intro cats
  induction cats with
  | nil =>
    intro _ df encs _ h
    obtain ⟨c, hc, _⟩ := h
    cases hc
  | cons c rest ih =>
    intro hnd df encs hcolsnd h
    have hcrest : c ∉ rest := (List.nodup_cons.mp hnd).1
    have hndrest : rest.Nodup := (List.nodup_cons.mp hnd).2
    obtain ⟨cw, hcw, hhas, classes, henc, hbad⟩ := h
    by_cases hcol : hasCol df c
    · cases hEc : encs c with
      | none =>
        have hstep : transformCats (c :: rest) df encs = transformCats rest df encs := by
          conv_lhs => rw [transformCats]
          rw [if_pos hcol, hEc]
        rw [hstep]
        have hcwrest : cw ∈ rest := by
          cases List.mem_cons.mp hcw with
          | inl hh => exfalso; rw [hh] at henc; rw [henc] at hEc; cases hEc
          | inr hh => exact hh
        exact ih hndrest df encs hcolsnd ⟨cw, hcwrest, hhas, classes, henc, hbad⟩
      | some cl =>
        by_cases hall : (getCol df c).all (fun v => decide (v ∈ cl)) = true
        · have hstep : transformCats (c :: rest) df encs
              = transformCats rest (mapCol df c (fun v => .num (idxOfV v cl))) encs := by
            conv_lhs => rw [transformCats]
            rw [if_pos hcol, hEc]
            simp only [hall, if_true]
          rw [hstep]
          have hcmem : c ∈ df.cols := by simpa [hasCol] using hcol
          have hcwrest : cw ∈ rest := by
            cases List.mem_cons.mp hcw with
            | inl hh =>
              exfalso
              rw [hh] at henc hbad
              rw [henc] at hEc
              obtain rfl : classes = cl := Option.some.inj hEc
              exact hbad hall
            | inr hh => exact hh
          have hnecw : cw ≠ c := fun hh => hcrest (hh ▸ hcwrest)
          refine ih hndrest _ encs (by simpa [mapCol] using hcolsnd)
            ⟨cw, hcwrest, ?_, classes, henc, ?_⟩
          · simpa [hasCol, mapCol] using hhas
          · rw [getCol_mapCol_ne hcolsnd hcmem hnecw]
            exact hbad
        · conv_lhs => rw [transformCats]
          rw [if_pos hcol, hEc]
          simp only [hall, if_false, Bool.false_eq_true]
    · have hstep : transformCats (c :: rest) df encs = transformCats rest df encs := by
        conv_lhs => rw [transformCats]
        rw [if_neg hcol]
      rw [hstep]
      have hcwrest : cw ∈ rest := by
        cases List.mem_cons.mp hcw with
        | inl hh => exfalso; rw [hh] at hhas; exact hcol hhas
        | inr hh => exact hh
      exact ih hndrest df encs hcolsnd ⟨cw, hcwrest, hhas, classes, henc, hbad⟩

/-- C3 amended: a categorical value unseen at fit, in a column whose
encoder exists, makes transform fail with the sklearn ValueError; and a
processor whose scaler was never fitted cannot transform at all. (The
counterexample shows the remaining part of the original claim — that a
*missing* encoder is an error — is false: it is silently skipped.) -/
theorem prepare_transform_unseen_or_unfitted :
    (∀ (sqrtFn : Rat → Rat) (dp : DataProcessor) (df : DataFrame),
      df.cols.Nodup →
      (∃ c ∈ categorical_columns, hasCol df c = true ∧
        ∃ classes, dp.label_encoders c = some classes ∧
          ¬((getCol df c).all (fun v => decide (v ∈ classes)) = true)) →
      prepare_model_data sqrtFn dp df false
        = .error "ValueError: y contains previously unseen labels")
    ∧ (∀ (sqrtFn : Rat → Rat) (dp : DataProcessor) (df : DataFrame),
      dp.scaler = none → (prepare_model_data sqrtFn dp df false).isOk = false) := by
  constructor
  · intro sqrtFn dp df hnd hex
    unfold prepare_model_data
    rw [if_neg (by simp)]
    rw [transformCats_error_of_unseen categorical_columns (by decide) df
      dp.label_encoders hnd hex]
    rfl
  · intro sqrtFn dp df hsc
    unfold prepare_model_data
    rw [if_neg (by simp)]
    cases ht : transformCats categorical_columns df dp.label_encoders with
    | error e => rfl
    | ok dfe =>
      show (Except.ok dfe >>= _).isOk = false
      cases hs : selectCols dfe feature_columns with
      | error e =>
        show (selectCols dfe feature_columns >>= _).isOk = false
        rw [hs]; rfl
      | ok x0 =>
        show (selectCols dfe feature_columns >>= _).isOk = false
        rw [hs]
        show (match dp.scaler with
          | none => Except.error "NotFittedError: This StandardScaler instance is not fitted yet"
          | some sc => do
            let x1 ← scalerTransform sc x0
            let y ← computeLabels dfe
            Except.ok (x1, y, dp)).isOk = false
        rw [hsc]
        rfl

set_option maxHeartbeats 4000000 in
/-- C3 counterexample: fitting on a frame without the
`icd_10_113_cause_list` column leaves that encoder missing, yet the
transform call on a frame that has the column succeeds — the missing
encoder is silently skipped, not an error as the claim requires. -/
theorem unknown_category_counterexample :
    c3fit.isOk = true ∧
    c3dp.label_encoders "icd_10_113_cause_list" = none ∧
    hasCol c3dfB "icd_10_113_cause_list" = true ∧
    (prepare_model_data id c3dp c3dfB false).isOk = true := by
  refine ⟨?_, ?_, by decide, ?_⟩
  · norm_num +decide [c3fit, prepare_model_data, DataProcessor.new, c3dfA, fitCats,
      sortedClasses, sortLe, insertLe, vle, idxOfV, mapCol, getCol, hasCol, colIdx, idxOf,
      selectCols, scalerFitTransform, scalerApply, scalerApplyAux, scaled_columns, meanOf,
      varOf, scaleOf, numColE, getColE, mapE, toRatE, computeLabels, medianOf, sortRat,
      categorical_columns, feature_columns, Except.instMonad, Except.bind, Except.isOk,
      List.dedup_nil, List.dedup_cons_of_not_mem]
  · norm_num +decide [c3dp, c3fit, prepare_model_data, DataProcessor.new, c3dfA, fitCats,
      sortedClasses, sortLe, insertLe, vle, idxOfV, mapCol, getCol, hasCol, colIdx, idxOf,
      selectCols, scalerFitTransform, scalerApply, scalerApplyAux, scaled_columns, meanOf,
      varOf, scaleOf, numColE, getColE, mapE, toRatE, computeLabels, medianOf, sortRat,
      categorical_columns, feature_columns, Except.instMonad, Except.bind,
      List.dedup_nil, List.dedup_cons_of_not_mem]
  · norm_num +decide [c3dp, c3fit, prepare_model_data, DataProcessor.new, c3dfA, c3dfB,
      fitCats, transformCats, sortedClasses, sortLe, insertLe, vle, idxOfV, mapCol,
      getCol, hasCol, colIdx, idxOf, selectCols, scalerFitTransform, scalerTransform,
      scalerApply, scalerApplyAux, scaled_columns, meanOf, varOf, scaleOf, numColE,
      getColE, mapE, toRatE, computeLabels, medianOf, sortRat, categorical_columns,
      feature_columns, Except.instMonad, Except.bind, Except.isOk,
      List.dedup_nil, List.dedup_cons_of_not_mem]

set_option maxHeartbeats 4000000 in
/-- C3 amended witness: the fitted state rejects the unseen county
value with the sklearn ValueError, and a never-fitted processor cannot
transform (its scaler is unfitted). -/
theorem prepare_transform_unseen_or_unfitted_witness :
    prepare_model_data id c3dp c3dfU false
      = .error "ValueError: y contains previously unseen labels" ∧
    (prepare_model_data id DataProcessor.new c3dfB false).isOk = false := by
  constructor
  · apply prepare_transform_unseen_or_unfitted.1 id c3dp c3dfU (by decide)
    refine ⟨"county", by decide, by decide, [Value.str "A"], ?_, ?_⟩
    · norm_num +decide [c3dp, c3fit, prepare_model_data, DataProcessor.new, c3dfA,
        fitCats, sortedClasses, sortLe, insertLe, vle, idxOfV, mapCol, getCol, hasCol,
        colIdx, idxOf, selectCols, scalerFitTransform, scalerApply, scalerApplyAux,
        scaled_columns, meanOf, varOf, scaleOf, numColE, getColE, mapE, toRatE,
        computeLabels, medianOf, sortRat, categorical_columns, feature_columns,
        Except.instMonad, Except.bind, List.dedup_nil, List.dedup_cons_of_not_mem]
    · decide
  · exact prepare_transform_unseen_or_unfitted.2 id DataProcessor.new c3dfB rfl


/-! ### C1: single active artifact per type -/

theorem deact_id (t : String) (m : MLModel) : (deactivateOfType t m).id = m.id := by
  unfold deactivateOfType
  split <;> rfl

theorem deact_type (t : String) (m : MLModel) :
    (deactivateOfType t m).model_type = m.model_type := by
  unfold deactivateOfType
  split <;> rfl

theorem deact_self_inactive (t : String) (m : MLModel) :
    decide ((deactivateOfType t m).model_type = t ∧ (deactivateOfType t m).is_active)
      = false := by
  unfold deactivateOfType
  by_cases h : m.model_type = t ∧ m.is_active
  · rw [if_pos h]
    simp
  · rw [if_neg h]
    simpa using h

theorem deact_other (t t' : String) (hne : t' ≠ t) (m : MLModel) :
    decide ((deactivateOfType t m).model_type = t' ∧ (deactivateOfType t m).is_active)
      = decide (m.model_type = t' ∧ m.is_active)
    ∧ (decide (m.model_type = t' ∧ m.is_active) = true → deactivateOfType t m = m) := by
  unfold deactivateOfType
  by_cases h : m.model_type = t ∧ m.is_active
  · rw [if_pos h]
    constructor
    · simp only [decide_eq_decide]
      constructor
      · intro hh; exact absurd (hh.1.symm.trans h.1) hne
      · intro hh; exact absurd (hh.1.symm.trans h.1) hne
    · intro hh
      exfalso
      exact hne ((of_decide_eq_true hh).1.symm.trans h.1)
  · rw [if_neg h]
    exact ⟨rfl, fun _ => rfl⟩

theorem act_noop {model_id : Nat} {m : MLModel} (h : ¬m.id = model_id) :
    activateIfId model_id m = m := by
  unfold activateIfId
  rw [if_neg h]

theorem act_deact_target {model_id : Nat} {target : MLModel}
    (htid : target.id = model_id) (t : String) :
    activateIfId model_id (deactivateOfType t target)
      = { target with is_active := true } := by
  unfold activateIfId deactivateOfType
  by_cases h : target.model_type = t ∧ target.is_active
  · rw [if_pos h, if_pos (by simpa using htid)]
  · rw [if_neg h, if_pos (by simpa using htid)]

theorem nodup_key_inj : ∀ {l : List MLModel}, (l.map MLModel.id).Nodup →
    ∀ a ∈ l, ∀ b ∈ l, a.id = b.id → a = b := by
  intro l
  induction l with
  | nil => intro _ a ha; cases ha
  | cons x xs ih =>
    intro h a ha b hb hab
    have hx : x.id ∉ xs.map MLModel.id := (List.nodup_cons.mp (by simpa using h)).1
    have hxs : (xs.map MLModel.id).Nodup := (List.nodup_cons.mp (by simpa using h)).2
    cases List.mem_cons.mp ha with
    | inl haa =>
      cases List.mem_cons.mp hb with
      | inl hbb => rw [haa, hbb]
      | inr hbb =>
        exact absurd (by rw [haa] at hab; rw [hab]; exact List.mem_map_of_mem MLModel.id hbb) hx
    | inr haa =>
      cases List.mem_cons.mp hb with
      | inl hbb =>
        exact absurd (by rw [hbb] at hab; rw [← hab]; exact List.mem_map_of_mem MLModel.id haa) hx
      | inr hbb => exact ih hxs a haa b hbb hab

theorem filter_map_nil {α β : Type} (p : β → Bool) (g : α → β) :
    ∀ l : List α, (∀ m ∈ l, p (g m) = false) → (l.map g).filter p = [] := by
  intro l
  induction l with
  | nil => intro _; rfl
  | cons x xs ih =>
    intro h
    simp only [List.map_cons, List.filter_cons]
    rw [if_neg (by rw [h x (List.mem_cons_self x xs)]; simp)]
    exact ih (fun m hm => h m (List.mem_cons_of_mem x hm))

theorem filter_map_single {α β : Type} [DecidableEq α] (p : β → Bool) (g : α → β)
    (a : α) (b : β) (hb : g a = b) (hpb : p b = true) :
    ∀ l : List α, l.count a = 1 → (∀ m ∈ l, m ≠ a → p (g m) = false) →
    (l.map g).filter p = [b] := by
  intro l
  induction l with
  | nil => intro hc; simp at hc
  | cons x xs ih =>
    intro hc hother
    by_cases hx : x = a
    · subst hx
      have hc0 : xs.count x = 0 := by
        rw [List.count_cons] at hc
        simpa using hc
      have hnx : x ∉ xs := List.count_eq_zero.mp hc0
      simp only [List.map_cons, List.filter_cons]
      rw [hb, if_pos (by rw [hpb])]
      rw [filter_map_nil p g xs
        (fun m hm => hother m (List.mem_cons_of_mem x hm) (fun hh => hnx (hh ▸ hm)))]
    · have hpx : p (g x) = false := hother x (List.mem_cons_self x xs) hx
      simp only [List.map_cons, List.filter_cons]
      rw [if_neg (by rw [hpx]; simp)]
      refine ih ?_ (fun m hm hma => hother m (List.mem_cons_of_mem x hm) hma)
      rw [List.count_cons] at hc
      simpa [hx] using hc

theorem filter_map_congr {α : Type} (p : α → Bool) (g : α → α) :
    ∀ l : List α, (∀ m ∈ l, p (g m) = p m ∧ (p m = true → g m = m)) →
    (l.map g).filter p = l.filter p := by
  intro l
  induction l with
  | nil => intro _; rfl
  | cons x xs ih =>
    intro h
    have hx := h x (List.mem_cons_self x xs)
    simp only [List.map_cons, List.filter_cons]
    rw [hx.1]
    by_cases hp : p x = true
    · rw [if_pos (by rw [hp]), if_pos (by rw [hp]), hx.2 hp]
      rw [ih (fun m hm => h m (List.mem_cons_of_mem x hm))]
    · have hpf : p x = false := by simpa using hp
      rw [if_neg (by rw [hpf]; simp), if_neg (by rw [hpf]; simp)]
      exact ih (fun m hm => h m (List.mem_cons_of_mem x hm))

/-- C1: after `save_model`, the new row is the single active row of its
type and other types are untouched; after a successful `activate_model`
on a registry with unique ids, the target is the single active row of
its type and other types are untouched — so at most one artifact per
type is ever active. -/
theorem single_active_per_type :
    (∀ (db : List MLModel) (name t : String) (met : Metrics) (hps rid : String)
       (newId now : Nat),
      activeOfType t (save_model db name t met hps rid newId now)
        = [newMLModel name t met hps rid newId now] ∧
      ∀ t', t' ≠ t → activeOfType t' (save_model db name t met hps rid newId now)
        = activeOfType t' db)
    ∧ (∀ (db db' : List MLModel) (mid : Nat),
      (db.map MLModel.id).Nodup →
      activate_model db mid = .ok db' →
      ∃ m, m ∈ db ∧ m.id = mid ∧
        activeOfType m.model_type db' = [{ m with is_active := true }] ∧
        ∀ t', t' ≠ m.model_type → activeOfType t' db' = activeOfType t' db) := by
  constructor
  · intro db name t met hps rid newId now
    constructor
    · unfold save_model activeOfType
      rw [List.filter_append]
      rw [filter_map_nil _ _ db (fun m _ => deact_self_inactive t m)]
      simp [newMLModel]
    · intro t' hne
      unfold save_model activeOfType
      rw [List.filter_append]
      rw [filter_map_congr _ _ db (fun m _ => deact_other t t' hne m)]
      have : List.filter (fun m => decide (m.model_type = t' ∧ m.is_active))
          [newMLModel name t met hps rid newId now] = [] := by
        rw [List.filter_cons]
        rw [if_neg (by
          simp only [newMLModel, decide_eq_true_eq]
          intro hh
          exact hne hh.1.symm)]
        rfl
      rw [this, List.append_nil]
  · intro db db' mid hnd hact
    unfold activate_model at hact
    cases hfind : db.find? (fun m => decide (m.id = mid)) with
    | none => rw [hfind] at hact; cases hact
    | some target =>
      rw [hfind] at hact
      have htmem : target ∈ db := List.mem_of_find?_eq_some hfind
      have htid : target.id = mid := by
        have := List.find?_some hfind
        simpa using this
      have hinj := nodup_key_inj hnd
      have hdb' : db' = (db.map (deactivateOfType target.model_type)).map (activateIfId mid) :=
        (Except.ok.inj hact).symm
      rw [List.map_map] at hdb'
      have hg : ∀ m : MLModel, (activateIfId mid ∘ deactivateOfType target.model_type) m
          = activateIfId mid (deactivateOfType target.model_type m) := fun _ => rfl
      refine ⟨target, htmem, htid, ?_, ?_⟩
      · rw [hdb']
        unfold activeOfType
        refine filter_map_single
          (fun m => decide (m.model_type = target.model_type ∧ m.is_active))
          (activateIfId mid ∘ deactivateOfType target.model_type) target
          { target with is_active := true } ?_ (by simp) db
          (List.count_eq_one_of_mem (List.Nodup.of_map MLModel.id hnd) htmem) ?_
        · rw [hg]
          exact act_deact_target htid target.model_type
        · intro m hm hma
          have hmid : ¬(m.id = mid) := fun hh => hma (hinj m hm target htmem (hh.trans htid.symm))
          rw [hg, act_noop (by rw [deact_id]; exact hmid)]
          exact deact_self_inactive target.model_type m
      · intro t' hne
        rw [hdb']
        unfold activeOfType
        refine filter_map_congr
          (fun m => decide (m.model_type = t' ∧ m.is_active))
          (activateIfId mid ∘ deactivateOfType target.model_type) db ?_
        intro m hm
        rw [hg]
        by_cases hmid : m.id = mid
        · have hmt : m = target := hinj m hm target htmem (hmid.trans htid.symm)
          subst hmt
          rw [act_deact_target hmid m.model_type]
          constructor
          · simp [Ne.symm hne]
          · intro hp
            exact absurd ((of_decide_eq_true hp).1 ▸ rfl) (Ne.symm hne)
        · rw [act_noop (by rw [deact_id]; exact hmid)]
          exact deact_other target.model_type t' hne m


/-- C1 witness: on a concrete two-row registry, saving a new
random_forest model leaves it the sole active random_forest row and the
logistic_regression rows untouched; re-activating row 1 afterwards
leaves it the sole active row of its type. -/
theorem single_active_per_type_witness :
    (activeOfType "random_forest" (save_model c1db "m2" "random_forest" c1met "{}" "" 3 7)
      = [newMLModel "m2" "random_forest" c1met "{}" "" 3 7]) ∧
    (activeOfType "logistic_regression" (save_model c1db "m2" "random_forest" c1met "{}" "" 3 7)
      = activeOfType "logistic_regression" c1db) ∧
    (∃ m, m ∈ c1db ∧ m.id = 1 ∧
      activeOfType m.model_type c1act = [{ m with is_active := true }] ∧
      ∀ t', t' ≠ m.model_type → activeOfType t' c1act = activeOfType t' c1db) := by
  refine ⟨(single_active_per_type.1 c1db "m2" "random_forest" c1met "{}" "" 3 7).1,
    (single_active_per_type.1 c1db "m2" "random_forest" c1met "{}" "" 3 7).2
      "logistic_regression" (by decide), ?_⟩
  exact single_active_per_type.2 c1db c1act 1 (by decide) rfl



/-! ### C8: retention cleanup -/

/-- Unfolded membership of a deleted id. -/
theorem mem_retiredIds {cutoff keep_best : Nat} {db : List MLModel} {i : Nat} :
    i ∈ retiredIds cutoff keep_best db ↔
    ∃ t, t ∈ ((db.filter (oldInactive cutoff)).map (·.model_type)).dedup ∧
      ∃ m, m ∈ (((db.filter (oldInactive cutoff)).filter
        (fun m => decide (m.model_type = t))).mergeSort byF1Desc).drop keep_best
        ∧ i = m.id := by
  unfold retiredIds
  rw [List.mem_flatMap]
  constructor
  · rintro ⟨t, ht, hi⟩
    rw [List.mem_map] at hi
    obtain ⟨m, hm, hmi⟩ := hi
    exact ⟨t, ht, m, hm, hmi.symm⟩
  · rintro ⟨t, ht, m, hm, hmi⟩
    exact ⟨t, ht, by rw [List.mem_map]; exact ⟨m, hm, hmi.symm⟩⟩

/-- Anything in a per-type drop list is an old inactive row of that type. -/
theorem retired_elem_facts {cutoff keep_best : Nat} {db : List MLModel} {t : String}
    {m : MLModel}
    (hm : m ∈ (((db.filter (oldInactive cutoff)).filter
      (fun m => decide (m.model_type = t))).mergeSort byF1Desc).drop keep_best) :
    m ∈ db ∧ oldInactive cutoff m = true ∧ m.model_type = t := by
  have h1 : m ∈ ((db.filter (oldInactive cutoff)).filter
      (fun m => decide (m.model_type = t))).mergeSort byF1Desc := by
    have := List.take_append_drop keep_best (((db.filter (oldInactive cutoff)).filter
      (fun m => decide (m.model_type = t))).mergeSort byF1Desc)
    rw [← this]
    exact List.mem_append_right _ hm
  have h2 : m ∈ (db.filter (oldInactive cutoff)).filter
      (fun m => decide (m.model_type = t)) :=
    (List.mergeSort_perm _ byF1Desc).subset h1
  have h3 := List.mem_filter.mp h2
  have h4 := List.mem_filter.mp h3.1
  exact ⟨h4.1, h4.2, by simpa using h3.2⟩

/-- C8 amended: the script cleanup never deletes an active row nor a row
at or past the cutoff, keeps the first `keep_best` of each type`s
F1-descending stable order — so ties go to list (query) order, not to
the newer artifact — and any row it deletes scores no higher than any
old inactive row of the same type it keeps; the Celery task cleanup
deletes nothing at all: it fails on the unimported name `MLModel` and
leaves the registry unchanged. -/
theorem retire_cleanup_behaviour :
    (∀ (cutoff keep_best : Nat) (db : List MLModel) (m : MLModel),
      (db.map MLModel.id).Nodup → m ∈ db → m.is_active = true →
      m ∈ script_cleanup cutoff keep_best db)
    ∧ (∀ (cutoff keep_best : Nat) (db : List MLModel) (m : MLModel),
      (db.map MLModel.id).Nodup → m ∈ db → cutoff ≤ m.created_at →
      m ∈ script_cleanup cutoff keep_best db)
    ∧ (∀ (cutoff keep_best : Nat) (db : List MLModel) (t : String) (m : MLModel),
      (db.map MLModel.id).Nodup →
      m ∈ (((db.filter (oldInactive cutoff)).filter
        (fun m => decide (m.model_type = t))).mergeSort byF1Desc).take keep_best →
      m ∈ script_cleanup cutoff keep_best db)
    ∧ (∀ (cutoff keep_best : Nat) (db : List MLModel) (m1 m2 : MLModel),
      (db.map MLModel.id).Nodup →
      m1 ∈ db → m2 ∈ db →
      oldInactive cutoff m1 = true → oldInactive cutoff m2 = true →
      m1.model_type = m2.model_type →
      m1 ∈ script_cleanup cutoff keep_best db →
      m2 ∉ script_cleanup cutoff keep_best db →
      m2.f1_score ≤ m1.f1_score)
    ∧ (∀ (cutoff : Nat) (db : List MLModel),
      (task_cleanup cutoff db).1.isOk = false ∧ (task_cleanup cutoff db).2 = db) := by
  have hdel : ∀ (cutoff keep_best : Nat) (db : List MLModel) (m : MLModel),
      (db.map MLModel.id).Nodup → m ∈ db → m.id ∈ retiredIds cutoff keep_best db →
      ∃ t, m ∈ (((db.filter (oldInactive cutoff)).filter
        (fun x => decide (x.model_type = t))).mergeSort byF1Desc).drop keep_best := by
    intro cutoff keep_best db m hnd hm hid
    obtain ⟨t, _, m', hm', hmi⟩ := mem_retiredIds.mp hid
    obtain ⟨hm'db, _, _⟩ := retired_elem_facts hm'
    have : m' = m := nodup_key_inj hnd m' hm'db m hm hmi.symm
    exact ⟨t, this ▸ hm'⟩
  refine ⟨?_, ?_, ?_, ?_, ?_⟩
  · intro cutoff keep_best db m hnd hm hact
    unfold script_cleanup
    rw [List.mem_filter]
    refine ⟨hm, ?_⟩
    simp only [Bool.not_eq_true']
    rw [decide_eq_false_iff_not]
    intro hid
    obtain ⟨t, hdrop⟩ := hdel cutoff keep_best db m hnd hm hid
    have := (retired_elem_facts hdrop).2.1
    rw [oldInactive, hact] at this
    simp at this
  · intro cutoff keep_best db m hnd hm hage
    unfold script_cleanup
    rw [List.mem_filter]
    refine ⟨hm, ?_⟩
    simp only [Bool.not_eq_true']
    rw [decide_eq_false_iff_not]
    intro hid
    obtain ⟨t, hdrop⟩ := hdel cutoff keep_best db m hnd hm hid
    have := (retired_elem_facts hdrop).2.1
    rw [oldInactive] at this
    have : m.created_at < cutoff := by
      have h1 := (Bool.and_eq_true_iff.mp this).1
      simpa using h1
    omega
  · intro cutoff keep_best db t m hnd htake
    have hsortnd : ((((db.filter (oldInactive cutoff)).filter
        (fun x => decide (x.model_type = t))).mergeSort byF1Desc)).Nodup := by
      refine (List.mergeSort_perm _ byF1Desc).symm.nodup ?_
      exact List.Nodup.filter _ (List.Nodup.filter _ (List.Nodup.of_map MLModel.id hnd))
    have hmem : m ∈ (((db.filter (oldInactive cutoff)).filter
        (fun x => decide (x.model_type = t))).mergeSort byF1Desc) := by
      rw [← List.take_append_drop keep_best (((db.filter (oldInactive cutoff)).filter
        (fun x => decide (x.model_type = t))).mergeSort byF1Desc)]
      exact List.mem_append_left _ htake
    have hmdb : m ∈ db := by
      have h2 := (List.mergeSort_perm _ byF1Desc).subset hmem
      exact (List.mem_filter.mp (List.mem_filter.mp h2).1).1
    have hmt : m.model_type = t := by
      have h2 := (List.mergeSort_perm _ byF1Desc).subset hmem
      simpa using (List.mem_filter.mp h2).2
    unfold script_cleanup
    rw [List.mem_filter]
    refine ⟨hmdb, ?_⟩
    simp only [Bool.not_eq_true']
    rw [decide_eq_false_iff_not]
    intro hid
    obtain ⟨t', hdrop⟩ := hdel cutoff keep_best db m hnd hmdb hid
    have ht' : m.model_type = t' := (retired_elem_facts hdrop).2.2
    have hteq : t' = t := ht' ▸ hmt
    subst hteq
    -- m is in both the take and the drop of a duplicate-free list
    have hdisj : (List.take keep_best (((db.filter (oldInactive cutoff)).filter
        (fun x => decide (x.model_type = t'))).mergeSort byF1Desc)).Disjoint
        (List.drop keep_best (((db.filter (oldInactive cutoff)).filter
        (fun x => decide (x.model_type = t'))).mergeSort byF1Desc)) := by
      have := hsortnd
      rw [← List.take_append_drop keep_best (((db.filter (oldInactive cutoff)).filter
        (fun x => decide (x.model_type = t'))).mergeSort byF1Desc)] at this
      exact (List.nodup_append.mp this).2.2
    exact hdisj htake hdrop
  · intro cutoff keep_best db m1 m2 hnd hm1 hm2 hoi1 hoi2 htype hkept hdel2
    -- m2 was deleted: find its drop-list
    have hid2 : m2.id ∈ retiredIds cutoff keep_best db := by
      by_contra hno
      apply hdel2
      unfold script_cleanup
      rw [List.mem_filter]
      exact ⟨hm2, by simpa using hno⟩
    obtain ⟨t, hdrop2⟩ := hdel cutoff keep_best db m2 hnd hm2 hid2
    have ht2 : m2.model_type = t := (retired_elem_facts hdrop2).2.2
    -- m1 is in the same sorted group
    have hm1grp : m1 ∈ ((db.filter (oldInactive cutoff)).filter
        (fun x => decide (x.model_type = t))).mergeSort byF1Desc := by
      refine (List.mergeSort_perm _ byF1Desc).mem_iff.mpr ?_
      rw [List.mem_filter]
      exact ⟨List.mem_filter.mpr ⟨hm1, hoi1⟩, by simp [htype, ht2]⟩
    -- m1 is not in the drop part (else it would be deleted)
    have hm1take : m1 ∈ List.take keep_best (((db.filter (oldInactive cutoff)).filter
        (fun x => decide (x.model_type = t))).mergeSort byF1Desc) := by
      rw [← List.take_append_drop keep_best (((db.filter (oldInactive cutoff)).filter
        (fun x => decide (x.model_type = t))).mergeSort byF1Desc)] at hm1grp
      cases List.mem_append.mp hm1grp with
      | inl h => exact h
      | inr h =>
        exfalso
        have : m1.id ∈ retiredIds cutoff keep_best db := by
          rw [mem_retiredIds]
          refine ⟨t, ?_, m1, h, rfl⟩
          rw [List.mem_dedup, List.mem_map]
          exact ⟨m1, List.mem_filter.mpr ⟨hm1, hoi1⟩, htype.trans ht2⟩
        have hk := List.mem_filter.mp hkept
        rw [Bool.not_eq_true', decide_eq_false_iff_not] at hk
        exact hk.2 this
    -- pairwise order on the sorted group
    have hpw : List.Pairwise (fun a b => byF1Desc a b = true)
        ((((db.filter (oldInactive cutoff)).filter
          (fun x => decide (x.model_type = t))).mergeSort byF1Desc)) := by
      apply List.sorted_mergeSort
      · intro a b c hab hbc
        unfold byF1Desc at hab hbc ⊢
        simp only [decide_eq_true_eq] at hab hbc ⊢
        exact le_trans hbc hab
      · intro a b
        unfold byF1Desc
        rcases le_total b.f1_score a.f1_score with h | h <;> simp [h]
    have := List.pairwise_append.mp (by
      rw [List.take_append_drop keep_best (((db.filter (oldInactive cutoff)).filter
        (fun x => decide (x.model_type = t))).mergeSort byF1Desc)]
      exact hpw)
    have hr := this.2.2 m1 hm1take m2 hdrop2
    unfold byF1Desc at hr
    simpa using hr
  · intro cutoff db
    exact ⟨rfl, rfl⟩


/-- C8 counterexample: two old inactive artifacts of the same type with
equal weighted F1. The claim breaks the tie in favour of the newer
artifact (`c8tieNew`, created_at 5), but the script cleanup with
`keep_best = 1` keeps the earlier-listed, *older* one (`c8tieOld`,
created_at 0) — the stable F1-descending sort preserves list order on
ties — and deletes the newer: the tie-break clause of the claim is
false on this input. -/
theorem retire_counterexample :
    c8tieOld.f1_score = c8tieNew.f1_score ∧
    c8tieOld.created_at < c8tieNew.created_at ∧
    c8tieOld.is_active = false ∧ c8tieNew.is_active = false ∧
    c8tieOld.created_at < 10 ∧ c8tieNew.created_at < 10 ∧
    script_cleanup 10 1 [c8tieOld, c8tieNew] = [c8tieOld] := by
  refine ⟨rfl, by decide, rfl, rfl, by decide, by decide, ?_⟩
  norm_num [script_cleanup, retiredIds, oldInactive, c8tieOld, c8tieNew, newMLModel,
    c1met, List.mergeSort, byF1Desc]

/-- C8 amended witness: on the concrete registry the active artifact
and the top-1 old inactive artifact survive the script cleanup, the
deleted old inactive artifact scores no higher, and the task cleanup
call fails with the registry unchanged. -/
theorem retire_cleanup_behaviour_witness :
    (c8active ∈ script_cleanup 10 1 c8db) ∧
    (c8best ∈ script_cleanup 10 1 c8db) ∧
    (c8worst.f1_score ≤ c8best.f1_score) ∧
    ((task_cleanup 20 c8db).1.isOk = false ∧ (task_cleanup 20 c8db).2 = c8db) := by
  have hnd : (c8db.map MLModel.id).Nodup := by decide
  refine ⟨retire_cleanup_behaviour.1 10 1 c8db c8active hnd (by decide) rfl,
    ?_, ?_, retire_cleanup_behaviour.2.2.2.2 20 c8db⟩
  · apply retire_cleanup_behaviour.2.2.1 10 1 c8db "random_forest" c8best hnd
    norm_num [c8db, oldInactive, c8best, c8worst, c8active, newMLModel, c1met,
      List.mergeSort, byF1Desc]
  · apply retire_cleanup_behaviour.2.2.2.1 10 1 c8db c8best c8worst hnd
      (by decide) (by decide) (by decide) (by decide) rfl
    · apply retire_cleanup_behaviour.2.2.1 10 1 c8db "random_forest" c8best hnd
      norm_num [c8db, oldInactive, c8best, c8worst, c8active, newMLModel, c1met,
        List.mergeSort, byF1Desc]
    · intro hmem
      have : decide (c8worst.id ∈ retiredIds 10 1 c8db) = false := by
        have h := (List.mem_filter.mp hmem).2
        simpa using h
      rw [decide_eq_false_iff_not] at this
      apply this
      norm_num [retiredIds, oldInactive, c8db, c8best, c8worst, c8active, newMLModel,
        c1met, List.mergeSort, byF1Desc]



/-! ### C5: unsupported model family rejected before any data access -/

/-- C5: a training request whose family is outside
{random_forest, logistic_regression} is rejected with the HTTP 400
invalid-model-type error (the spec`s `UnsupportedModelFamily`) with an
empty effect list: the record count is never queried, no task is
enqueued, no data is touched. -/
theorem unsupported_family_rejected_first (req : TrainingRequest)
    (records : List MortRecord)
    (h : ¬(req.model_type = "random_forest" ∨ req.model_type = "logistic_regression")) :
    start_model_training req records
      = (.error "400: Invalid model type. Must be random_forest or logistic_regression",
         []) := by
  unfold start_model_training
  rw [if_neg h]

/-- C5 witness: the spec`s example family `unsupported_model` is
rejected with no effects, on any record store. -/
theorem unsupported_family_rejected_first_witness :
    start_model_training c5req c4recs
      = (.error "400: Invalid model type. Must be random_forest or logistic_regression",
         []) :=
  unsupported_family_rejected_first c5req c4recs (by decide)

/-! ### C4: the 1000-record submission threshold -/

/-- C4 counterexample: 1000 rows whose deaths and population are all
null leave zero qualifying rows, yet the submission is not rejected
with the data-insufficiency validation error the claim requires: the
endpoint raises `NameError` (line 97 uses `func`, never imported)
before the count even runs. (No job is created either — but on *every*
valid-family submission, not because of a data check.) -/
theorem insufficient_data_counterexample :
    (c4recs.filter qualifies).length = 0 ∧
    start_model_training c4req c4recs
      = (.error "NameError: name func is not defined", []) ∧
    ((.error "NameError: name func is not defined" : Except String String)
      ≠ .error "400: Insufficient data for training. Minimum 1000 records required.") := by
  have hq : c4recs.filter qualifies = [] := by
    rw [List.filter_eq_nil_iff]
    intro a ha
    have : a = nullRec :=
      List.eq_of_mem_replicate (show a ∈ List.replicate 1000 nullRec from ha)
    rw [this]
    decide
  refine ⟨by rw [hq]; rfl, ?_, fun h => absurd (Except.error.inj h) (by decide)⟩
  unfold start_model_training
  rw [if_pos (show c4req.model_type = "random_forest"
    ∨ c4req.model_type = "logistic_regression" from Or.inl rfl)]

/-- C4 amended: no training submission ever creates a job. A
valid-family submission fails synchronously with `NameError` (line 97
references `func` and `RespiratoryMortality`, neither of which
`endpoints/models.py` imports) before any record count or task
enqueue, and an invalid family is rejected with HTTP 400 — so the
1000-record insufficiency rejection is unreachable dead code and the
effect list is empty on every path. The training task itself, when
invoked, raises `ValueError` if the non-null-filtered rows number
under 1000. -/
theorem submission_threshold_behaviour :
    (∀ (req : TrainingRequest) (records : List MortRecord),
      (req.model_type = "random_forest" ∨ req.model_type = "logistic_regression") →
      start_model_training req records
        = (.error "NameError: name func is not defined", []))
    ∧ (∀ (req : TrainingRequest) (records : List MortRecord),
      (start_model_training req records).1.isOk = false ∧
      Effect.enqueueTask ∉ (start_model_training req records).2 ∧
      Effect.countQuery ∉ (start_model_training req records).2)
    ∧ (∀ (permFn : Nat → Nat → List Nat)
        (fitFn : String → HP → List (List Rat) → List Nat → FittedModel)
        (sqrtFn : Rat → Rat) (records : List MortRecord) (t : String)
        (hp : Option HP) (db : List MLModel) (newId now : Nat),
      (records.filter qualifies).length < 1000 →
      train_model_task permFn fitFn sqrtFn records t hp db newId now
        = .error "Insufficient data for training") := by
  refine ⟨?_, ?_, ?_⟩
  · intro req records hv
    unfold start_model_training
    rw [if_pos hv]
  · intro req records
    unfold start_model_training
    by_cases hv : req.model_type = "random_forest" ∨ req.model_type = "logistic_regression"
    · rw [if_pos hv]
      exact ⟨rfl, by decide, by decide⟩
    · rw [if_neg hv]
      exact ⟨rfl, by decide, by decide⟩
  · intro permFn fitFn sqrtFn records t hp db newId now hlen
    unfold train_model_task
    have hdf : (toDataFrame (records.filter qualifies)).rows.length
        = (records.filter qualifies).length := by
      unfold toDataFrame
      simp
    rw [if_pos (by rw [hdf]; exact hlen)]

/-- C4 amended witness: the valid-family request over the 1000 null
rows raises the NameError with no effects, and the task immediately
raises the insufficiency error on empty data. -/
theorem submission_threshold_behaviour_witness :
    (start_model_training c4req c4recs
      = (.error "NameError: name func is not defined", [])) ∧
    ((start_model_training c4req c4recs).1.isOk = false ∧
      Effect.enqueueTask ∉ (start_model_training c4req c4recs).2 ∧
      Effect.countQuery ∉ (start_model_training c4req c4recs).2) ∧
    train_model_task c7perm c7fit id [] "random_forest" none [] 1 0
      = .error "Insufficient data for training" :=
  ⟨submission_threshold_behaviour.1 c4req c4recs (by decide),
   submission_threshold_behaviour.2.1 c4req c4recs,
   submission_threshold_behaviour.2.2 c7perm c7fit id [] "random_forest" none [] 1 0
     (by decide)⟩

/-! ### C7: the 80/20 validation split and held-out metrics -/

/-- C7: for a supported family and any interpretation of the seeded
shuffle as a permutation, `train_model` succeeds, the validation split
is the fixed-seed (42) 20% (ceiling) of the rows and the train split
the rest, no row index is in both, every row is in one of them, the
model is fit on the train rows only, all metrics are computed from the
held-out validation rows only, and a model without probabilities gets
AUC 0.0 rather than an error. -/
theorem train_validation_split
    (permFn : Nat → Nat → List Nat)
    (fitFn : String → HP → List (List Rat) → List Nat → FittedModel)
    (x : List (List Rat)) (y : List Nat) (t : String) (hp : Option HP)
    (hperm : ∀ s n, (permFn s n).Perm (List.range n))
    (ht : t = "random_forest" ∨ t = "logistic_regression") :
    ∃ model metrics,
      train_model permFn fitFn x y t hp = .ok (model, metrics) ∧
      (splitIdx permFn 42 x.length).2.length = (x.length + 4) / 5 ∧
      (splitIdx permFn 42 x.length).1.length = x.length - (x.length + 4) / 5 ∧
      (∀ i, i ∈ (splitIdx permFn 42 x.length).1 → i ∉ (splitIdx permFn 42 x.length).2) ∧
      (∀ i, i < x.length → i ∈ (splitIdx permFn 42 x.length).1
        ∨ i ∈ (splitIdx permFn 42 x.length).2) ∧
      model = fitFn t (hp.getD (default_params t))
        (rowsAt x (splitIdx permFn 42 x.length).1)
        (labelsAt y (splitIdx permFn 42 x.length).1) ∧
      metrics = evalMetrics model (rowsAt x (splitIdx permFn 42 x.length).2)
        (labelsAt y (splitIdx permFn 42 x.length).2) ∧
      (model.proba = none → metrics.auc_score = 0) := by
  have hpl : (permFn 42 x.length).length = x.length := by
    rw [(hperm 42 x.length).length_eq, List.length_range]
  have hnd : (permFn 42 x.length).Nodup :=
    (hperm 42 x.length).symm.nodup (List.nodup_range x.length)
  have hntest_le : (x.length + 4) / 5 ≤ x.length := by
    rw [Nat.div_le_iff_le_mul_add_pred (by norm_num)]
    omega
  refine ⟨_, _, ?_, ?_, ?_, ?_, ?_, rfl, rfl, ?_⟩
  · unfold train_model
    rw [if_pos ht]
  · show (List.take ((x.length + 4) / 5) (permFn 42 x.length)).length = _
    rw [List.length_take, hpl]
    omega
  · show (List.drop ((x.length + 4) / 5) (permFn 42 x.length)).length = _
    rw [List.length_drop, hpl]
  · intro i hitr hite
    have hsplit := List.take_append_drop ((x.length + 4) / 5) (permFn 42 x.length)
    have hnd2 := hnd
    rw [← hsplit] at hnd2
    exact (List.nodup_append.mp hnd2).2.2 hite hitr
  · intro i hi
    have : i ∈ permFn 42 x.length := (hperm 42 x.length).mem_iff.mpr (List.mem_range.mpr hi)
    rw [← List.take_append_drop ((x.length + 4) / 5) (permFn 42 x.length)] at this
    cases List.mem_append.mp this with
    | inl h => exact Or.inr h
    | inr h => exact Or.inl h
  · intro hpr
    show (evalMetrics _ _ _).auc_score = 0
    unfold evalMetrics
    rw [hpr]

/-- C7 witness: five concrete rows, the identity permutation as the
shuffle model and a probability-less classifier stand-in. -/
theorem train_validation_split_witness :
    ∃ model metrics,
      train_model c7perm c7fit c7x c7y "random_forest" none = .ok (model, metrics) ∧
      (splitIdx c7perm 42 c7x.length).2.length = (c7x.length + 4) / 5 ∧
      (splitIdx c7perm 42 c7x.length).1.length = c7x.length - (c7x.length + 4) / 5 ∧
      (∀ i, i ∈ (splitIdx c7perm 42 c7x.length).1 → i ∉ (splitIdx c7perm 42 c7x.length).2) ∧
      (∀ i, i < c7x.length → i ∈ (splitIdx c7perm 42 c7x.length).1
        ∨ i ∈ (splitIdx c7perm 42 c7x.length).2) ∧
      model = c7fit "random_forest" (Option.none.getD (default_params "random_forest"))
        (rowsAt c7x (splitIdx c7perm 42 c7x.length).1)
        (labelsAt c7y (splitIdx c7perm 42 c7x.length).1) ∧
      metrics = evalMetrics model (rowsAt c7x (splitIdx c7perm 42 c7x.length).2)
        (labelsAt c7y (splitIdx c7perm 42 c7x.length).2) ∧
      (model.proba = none → metrics.auc_score = 0) :=
  train_validation_split c7perm c7fit c7x c7y "random_forest" none
    (fun _ _ => List.Perm.refl _) (Or.inl rfl)

/-! ### C10: predict with no active model -/

/-- C10: whenever no active model is loaded, `predict` raises the
ValueError and yields no predictions, for every input and both
probability modes; the function neither trains nor loads anything (its
state is read-only and the error is raised before any model use). -/
theorem predict_no_active_model (svc : MLServiceState)
    (features : List (List Rat)) (return_probabilities : Bool)
    (h : svc.active_model = none) :
    predict svc features return_probabilities
      = .error "No active model loaded. Please load a model first." := by
  unfold predict
  rw [h]

/-- C10 witness: the empty service errors on a concrete feature row. -/
theorem predict_no_active_model_witness :
    predict svcEmpty [[1, 2, 3]] true
      = .error "No active model loaded. Please load a model first." :=
  predict_no_active_model svcEmpty [[1, 2, 3]] true rfl

end RespMort
